import Mathlib

/-!
# go-crud-api: the in-memory item store and its HTTP handlers

A shallow embedding of `src/go-crud-api/main.go`.

Modelling conventions.

* `int` is the 64-bit two's complement integer: a value of `Int` between
  `MinInt` and `MaxInt`, and `s.nextID++` wraps from `MaxInt` to `MinInt`
  (`intInc`).  Only `Store.CreateUnbounded` and the runs built on it take `int`
  as the unbounded integers.  Instants (`time.Time`) are modelled as `Nat`.
* `map[int]*Item` is a finite map with unique keys (`AList`).  The store owns
  its records: every `*Item` handed to `Create` is a record of its own (the
  only caller, `handleCreateItem`, allocates one per request), so a pointer to
  a record is modelled by the record's value, and the in-place writes of
  `Update` become a re-binding of the key.  A `nil` argument is outside the
  model.
* `time.Now()` is an input: every operation that reads the clock takes its
  readings as arguments, in the order in which the code takes them.
* The read/write lock is not modelled; operations are atomic steps.
* `strconv.Atoi` and the JSON decoder are library code and are parameters of
  the handler layer (`Codec`).
-/

namespace GoCrudApi

/-- An instant, as read from the clock by `time.Now()`. -/
abbrev Time := Nat

/-- The record `Item` (main.go, lines 15-21). -/
structure Item where
  ID : Int
  Name : String
  Description : String
  CreatedAt : Time
  UpdatedAt : Time
deriving DecidableEq, Repr

/-- The zero value of `Item`, what `var item Item` declares. -/
def Item.zero : Item :=
  { ID := 0, Name := "", Description := "", CreatedAt := 0, UpdatedAt := 0 }

/-- The greatest value of a Go `int` of 64 bits. -/
def MaxInt : Int := 9223372036854775807

/-- The least value of a Go `int` of 64 bits. -/
def MinInt : Int := -9223372036854775808

/-- The statement `x++` on a Go `int`: the next integer, and the least `int`
after the greatest one. -/
def intInc (x : Int) : Int :=
  if x = MaxInt then MinInt else x + 1

/-- The record `Store` (main.go, lines 23-27), without its lock. -/
structure Store where
  items : AList (fun _ : Int => Item)
  nextID : Int
deriving DecidableEq

/-- `NewStore` (lines 29-34): an empty map and the counter at 1. -/
def NewStore : Store :=
  { items := ∅, nextID := 1 }

namespace Store

/-- `Store.Create` (lines 36-47).  `t₁` and `t₂` are the two clock readings of
lines 41 and 42, in that order, and `s.nextID++` of line 44 is the wrapping
increment of a Go `int`.  Returns the stored item and the new store. -/
def Create (s : Store) (item : Item) (t₁ t₂ : Time) : Item × Store :=
  let item := { item with ID := s.nextID }
  let item := { item with CreatedAt := t₁ }
  let item := { item with UpdatedAt := t₂ }
  (item, { items := s.items.insert item.ID item, nextID := intInc s.nextID })

/-- `Store.Create` with `int` taken as the unbounded integers: the counter never
wraps. -/
def CreateUnbounded (s : Store) (item : Item) (t₁ t₂ : Time) : Item × Store :=
  ((s.Create item t₁ t₂).1, { (s.Create item t₁ t₂).2 with nextID := s.nextID + 1 })

/-- `Store.GetAll` (lines 49-58): the stored items, in the order in which the
map is walked.  Go leaves that order unspecified; see `GetAllResult`.  The
slice comes from `make` and is never `nil`; a list has no `nil` value. -/
def GetAll (s : Store) : List Item :=
  s.items.entries.map (fun e => e.2)

/-- What a call of `GetAll` may return: the stored items in any order of
iteration over the map. -/
def GetAllResult (s : Store) (out : List Item) : Prop :=
  out.Perm s.GetAll

/-- `Store.GetByID` (lines 60-66): `some item` stands for `(item, true)` and
`none` for `(nil, false)`. -/
def GetByID (s : Store) (id : Int) : Option Item :=
  s.items.lookup id

/-- `Store.Update` (lines 68-82).  `t` is the clock reading of line 79, taken
only when the id is present. -/
def Update (s : Store) (id : Int) (updated : Item) (t : Time) : Option Item × Store :=
  match s.items.lookup id with
  | none => (none, s)
  | some item =>
    let item := { item with Name := updated.Name }
    let item := { item with Description := updated.Description }
    let item := { item with UpdatedAt := t }
    (some item, { s with items := s.items.insert id item })

/-- `Store.Delete` (lines 84-95). -/
def Delete (s : Store) (id : Int) : Bool × Store :=
  match s.items.lookup id with
  | none => (false, s)
  | some _ => (true, { s with items := s.items.erase id })

end Store

/-- One call of a method of the store, with the clock readings it takes. -/
inductive Op where
  | create (item : Item) (t₁ t₂ : Time)
  | getAll
  | getByID (id : Int)
  | update (id : Int) (updated : Item) (t : Time)
  | delete (id : Int)
deriving DecidableEq

/-- What a call of a method of the store returns. -/
inductive Ret where
  | created (item : Item)
  | all (items : List Item)
  | got (r : Option Item)
  | updated (r : Option Item)
  | deleted (ok : Bool)
deriving DecidableEq

namespace Store

/-- Perform one call on the store. -/
def step (s : Store) : Op → Ret × Store
  | .create item t₁ t₂ => (Ret.created (s.Create item t₁ t₂).1, (s.Create item t₁ t₂).2)
  | .getAll => (Ret.all s.GetAll, s)
  | .getByID id => (Ret.got (s.GetByID id), s)
  | .update id updated t => (Ret.updated (s.Update id updated t).1, (s.Update id updated t).2)
  | .delete id => (Ret.deleted (s.Delete id).1, (s.Delete id).2)

/-- Perform a sequence of calls, first to last; the results are in call order. -/
def run (s : Store) : List Op → List Ret × Store
  | [] => ([], s)
  | op :: ops => ((s.step op).1 :: ((s.step op).2.run ops).1, ((s.step op).2.run ops).2)

/-- The store after a sequence of calls. -/
def after (s : Store) (ops : List Op) : Store :=
  (s.run ops).2

/-- Perform one call on the store, with `int` taken as the unbounded integers. -/
def stepUnbounded (s : Store) : Op → Ret × Store
  | .create item t₁ t₂ =>
    (Ret.created (s.CreateUnbounded item t₁ t₂).1, (s.CreateUnbounded item t₁ t₂).2)
  | .getAll => (Ret.all s.GetAll, s)
  | .getByID id => (Ret.got (s.GetByID id), s)
  | .update id updated t => (Ret.updated (s.Update id updated t).1, (s.Update id updated t).2)
  | .delete id => (Ret.deleted (s.Delete id).1, (s.Delete id).2)

/-- Perform a sequence of calls, first to last, with `int` taken as the unbounded
integers; the results are in call order. -/
def runUnbounded (s : Store) : List Op → List Ret × Store
  | [] => ([], s)
  | op :: ops =>
    ((s.stepUnbounded op).1 :: ((s.stepUnbounded op).2.runUnbounded ops).1,
      ((s.stepUnbounded op).2.runUnbounded ops).2)

end Store

/-- The ids of the items returned by the `Create` calls of a run, in call order. -/
def createdIDs : List Ret → List Int
  | [] => []
  | .created item :: rs => item.ID :: createdIDs rs
  | .all _ :: rs => createdIDs rs
  | .got _ :: rs => createdIDs rs
  | .updated _ :: rs => createdIDs rs
  | .deleted _ :: rs => createdIDs rs

/-- The number of `Create` calls in a sequence of calls. -/
def countCreates : List Op → Nat
  | [] => 0
  | .create _ _ _ :: ops => countCreates ops + 1
  | .getAll :: ops => countCreates ops
  | .getByID _ :: ops => countCreates ops
  | .update _ _ _ :: ops => countCreates ops
  | .delete _ :: ops => countCreates ops

namespace Store

/-- The clock readings one call takes in state `s`, in the order taken: two for
a `Create`, one for an `Update` whose id is present, none otherwise. -/
def readingsOf (s : Store) : Op → List Time
  | .create _ t₁ t₂ => [t₁, t₂]
  | .getAll => []
  | .getByID _ => []
  | .update id _ t =>
    match s.GetByID id with
    | some _ => [t]
    | none => []
  | .delete _ => []

/-- The clock readings taken by a sequence of calls that starts in state `s`, in
the order taken. -/
def readings (s : Store) : List Op → List Time
  | [] => []
  | op :: ops => s.readingsOf op ++ (s.step op).2.readings ops

end Store

/-! ## The handler layer -/

/-- The library functions the handlers call, as parameters: `atoi` is
`strconv.Atoi` (`none` when it returns an error) and `decodeItem body` is the
value of `item` after `json.NewDecoder(r.Body).Decode(&item)` on a zero `Item`
(`none` when it returns an error). -/
structure Codec where
  atoi : String → Option Int
  decodeItem : String → Option Item

/-- What a handler reads of a request: the route variables (`mux.Vars(r)`) and
the body. -/
structure Request where
  vars : List (String × String)
  Body : String
deriving DecidableEq

/-- Indexing of the map `mux.Vars(r)`: a missing key gives the empty text. -/
def Request.var (r : Request) (key : String) : String :=
  match r.vars.lookup key with
  | some v => v
  | none => ""

/-- A value handed to the JSON encoder. -/
inductive Payload where
  | object (fields : List (String × String))
  | health (status environment : String) (timestamp : Time)
  | item (item : Item)
  | items (items : List Item)
deriving DecidableEq

/-- The state of an `http.ResponseWriter`: the header map, the status line once
written, and the values encoded to the body, in order. -/
structure ResponseWriter where
  header : List (String × String)
  status : Option Nat
  body : List Payload
deriving DecidableEq

namespace ResponseWriter

/-- The writer a handler is given: nothing set, nothing written. -/
def fresh : ResponseWriter :=
  { header := [], status := none, body := [] }

/-- The call `w.Header().Set(key, value)`. -/
def setHeader (w : ResponseWriter) (key value : String) : ResponseWriter :=
  { w with header := (key, value) :: w.header.filter (fun kv => kv.1 ≠ key) }

/-- The call `w.WriteHeader(status)`: the first call fixes the status. -/
def WriteHeader (w : ResponseWriter) (status : Nat) : ResponseWriter :=
  match w.status with
  | none => { w with status := some status }
  | some _ => w

/-- The call `json.NewEncoder(w).Encode(data)`: a write, which fixes the status at
200 when none was written. -/
def Encode (w : ResponseWriter) (data : Payload) : ResponseWriter :=
  let w := w.WriteHeader 200
  { w with body := w.body ++ [data] }

end ResponseWriter

def StatusOK : Nat := 200
def StatusCreated : Nat := 201
def StatusNoContent : Nat := 204
def StatusBadRequest : Nat := 400
def StatusNotFound : Nat := 404

/-- The record `API` (lines 97-100). -/
structure API where
  store : Store
  env : String
deriving DecidableEq

/-- `NewAPI` (lines 102-111); `environment` is the value of the variable
`ENVIRONMENT`. -/
def NewAPI (store : Store) (environment : String) : API :=
  let env := if environment = "" then "development" else environment
  { store := store, env := env }

namespace API

/-- `respondJSON` (lines 113-117). -/
def respondJSON (w : ResponseWriter) (status : Nat) (data : Payload) : ResponseWriter :=
  let w := w.setHeader "Content-Type" "application/json"
  let w := w.WriteHeader status
  w.Encode data

/-- `respondError` (lines 119-121). -/
def respondError (w : ResponseWriter) (status : Nat) (message : String) : ResponseWriter :=
  respondJSON w status (Payload.object [("error", message)])

/-- `handleHealth` (lines 124-130); `t` is the clock reading of line 128. -/
def handleHealth (api : API) (w : ResponseWriter) (t : Time) : ResponseWriter × API :=
  (respondJSON w StatusOK (Payload.health "healthy" api.env t), api)

/-- `handleGetItems` (lines 133-136). -/
def handleGetItems (api : API) (w : ResponseWriter) : ResponseWriter × API :=
  let items := api.store.GetAll
  (respondJSON w StatusOK (Payload.items items), api)

/-- `handleGetItem` (lines 139-154). -/
def handleGetItem (c : Codec) (api : API) (w : ResponseWriter) (r : Request) :
    ResponseWriter × API :=
  match c.atoi (r.var "id") with
  | none => (respondError w StatusBadRequest "Invalid item ID", api)
  | some id =>
    match api.store.GetByID id with
    | none => (respondError w StatusNotFound "Item not found", api)
    | some item => (respondJSON w StatusOK (Payload.item item), api)

/-- `handleCreateItem` (lines 157-171); `t₁`, `t₂` are the clock readings of the
call of `Create`. -/
def handleCreateItem (c : Codec) (api : API) (w : ResponseWriter) (r : Request)
    (t₁ t₂ : Time) : ResponseWriter × API :=
  match c.decodeItem r.Body with
  | none => (respondError w StatusBadRequest "Invalid request body", api)
  | some item =>
    if item.Name = "" then
      (respondError w StatusBadRequest "Name is required", api)
    else
      let created := api.store.Create item t₁ t₂
      (respondJSON w StatusCreated (Payload.item created.1), { api with store := created.2 })

/-- `handleUpdateItem` (lines 174-200); `t` is the clock reading of the call of
`Update`. -/
def handleUpdateItem (c : Codec) (api : API) (w : ResponseWriter) (r : Request)
    (t : Time) : ResponseWriter × API :=
  match c.atoi (r.var "id") with
  | none => (respondError w StatusBadRequest "Invalid item ID", api)
  | some id =>
    match c.decodeItem r.Body with
    | none => (respondError w StatusBadRequest "Invalid request body", api)
    | some item =>
      if item.Name = "" then
        (respondError w StatusBadRequest "Name is required", api)
      else
        match api.store.Update id item t with
        | (none, store) => (respondError w StatusNotFound "Item not found", { api with store := store })
        | (some updated, store) =>
          (respondJSON w StatusOK (Payload.item updated), { api with store := store })

/-- `handleDeleteItem` (lines 203-217). -/
def handleDeleteItem (c : Codec) (api : API) (w : ResponseWriter) (r : Request) :
    ResponseWriter × API :=
  match c.atoi (r.var "id") with
  | none => (respondError w StatusBadRequest "Invalid item ID", api)
  | some id =>
    match api.store.Delete id with
    | (false, store) => (respondError w StatusNotFound "Item not found", { api with store := store })
    | (true, store) => (w.WriteHeader StatusNoContent, { api with store := store })

end API

/-- One request as the router of `main` (lines 235-240) dispatches it, with the
clock readings its handler takes. -/
inductive Call where
  | health (r : Request) (t : Time)
  | getItems (r : Request)
  | getItem (r : Request)
  | createItem (r : Request) (t₁ t₂ : Time)
  | updateItem (r : Request) (t : Time)
  | deleteItem (r : Request)
deriving DecidableEq

namespace API

/-- Serve one request on a fresh response writer. -/
def serve (c : Codec) (api : API) : Call → ResponseWriter × API
  | .health _ t => api.handleHealth ResponseWriter.fresh t
  | .getItems _ => api.handleGetItems ResponseWriter.fresh
  | .getItem r => api.handleGetItem c ResponseWriter.fresh r
  | .createItem r t₁ t₂ => api.handleCreateItem c ResponseWriter.fresh r t₁ t₂
  | .updateItem r t => api.handleUpdateItem c ResponseWriter.fresh r t
  | .deleteItem r => api.handleDeleteItem c ResponseWriter.fresh r

/-- Serve a sequence of requests, first to last, and give the final state. -/
def serveAll (c : Codec) (api : API) : List Call → API
  | [] => api
  | call :: calls => serveAll c (api.serve c call).2 calls

end API

/-! ## Predicates and sample data used in the statements -/

namespace Store

/-- Every key of the map holds an item whose `ID` field is that key. -/
def KeyedByID (s : Store) : Prop :=
  ∀ e ∈ s.items.entries, e.2.ID = e.1

instance (s : Store) : Decidable s.KeyedByID :=
  inferInstanceAs (Decidable (∀ e ∈ s.items.entries, e.2.ID = e.1))

end Store

/-- An input item with every field set, the id and the timestamps to values the
store is to overwrite. -/
def sampleItem : Item :=
  { ID := 42, Name := "A", Description := "first", CreatedAt := 7, UpdatedAt := 9 }

/-- A sequence of `n` calls `Create` of `sampleItem`, each with clock readings 0
and 0. -/
@[irreducible]
def createsOnly (n : Nat) : List Op :=
  List.replicate n (Op.create sampleItem 0 0)

/-- The store after one `Create` of `sampleItem` on a new store, with clock
readings 10 and 11. -/
def oneItemStore : Store :=
  (NewStore.Create sampleItem 10 11).2

/-- A stand-in for the library functions, for concrete runs: it reads the ids
"1" and "2", fails on the empty body, decodes the body "{}" to the zero item and
any other body to an item of that name. -/
def sampleCodec : Codec :=
  { atoi := fun s => if s = "1" then some 1 else if s = "2" then some 2 else none,
    decodeItem := fun body =>
      if body = "" then none
      else if body = "{}" then some Item.zero
      else some { Item.zero with Name := body } }

namespace Store

/-- Every stored item was created no later than it was last updated, and last
updated no later than each of the clock readings still to come. -/
def TimesBefore (s : Store) (future : List Time) : Prop :=
  ∀ k item, s.GetByID k = some item →
    item.CreatedAt ≤ item.UpdatedAt ∧ ∀ r ∈ future, item.UpdatedAt ≤ r

/-- Every key holds an item whose `ID` field is that key, every key is at least
1 and below the counter, and the counter is at least 1. -/
def IdsBelowCounter (s : Store) : Prop :=
  1 ≤ s.nextID ∧ ∀ k item, s.GetByID k = some item → item.ID = k ∧ 1 ≤ k ∧ k < s.nextID

/-- No stored item has an empty name. -/
def NamesNonEmpty (s : Store) : Prop :=
  ∀ k item, s.GetByID k = some item → item.Name ≠ ""

end Store

/-! ## Basic facts about the store operations -/

theorem Store.Create_fst (s : Store) (item : Item) (t₁ t₂ : Time) :
    (s.Create item t₁ t₂).1 =
      { ID := s.nextID, Name := item.Name, Description := item.Description,
        CreatedAt := t₁, UpdatedAt := t₂ } := rfl

theorem Store.Create_snd (s : Store) (item : Item) (t₁ t₂ : Time) :
    (s.Create item t₁ t₂).2 =
      { items := s.items.insert s.nextID (s.Create item t₁ t₂).1,
        nextID := intInc s.nextID } := rfl

theorem Store.Update_of_absent (s : Store) (id : Int) (updated : Item) (t : Time)
    (h : s.items.lookup id = none) : s.Update id updated t = (none, s) := by
  simp [Store.Update, h]

theorem Store.Update_of_present (s : Store) (id : Int) (updated : Item) (t : Time) (old : Item)
    (h : s.items.lookup id = some old) :
    s.Update id updated t =
      (some { old with Name := updated.Name, Description := updated.Description, UpdatedAt := t },
       { items := s.items.insert id
          ({ old with Name := updated.Name, Description := updated.Description, UpdatedAt := t }),
         nextID := s.nextID }) := by
  simp [Store.Update, h]

theorem Store.Update_nextID (s : Store) (id : Int) (updated : Item) (t : Time) :
    (s.Update id updated t).2.nextID = s.nextID := by
  unfold Store.Update
  split <;> rfl

theorem Store.Delete_of_absent (s : Store) (id : Int) (h : s.items.lookup id = none) :
    s.Delete id = (false, s) := by
  simp [Store.Delete, h]

theorem Store.Delete_of_present (s : Store) (id : Int) (old : Item)
    (h : s.items.lookup id = some old) :
    s.Delete id = (true, { s with items := s.items.erase id }) := by
  simp [Store.Delete, h]

theorem Store.Delete_nextID (s : Store) (id : Int) : (s.Delete id).2.nextID = s.nextID := by
  unfold Store.Delete
  split <;> rfl

theorem Store.stepUnbounded_nextID (s : Store) (op : Op) :
    (s.stepUnbounded op).2.nextID = s.nextID + (countCreates [op] : Nat) := by
  cases op <;> simp [Store.stepUnbounded, Store.CreateUnbounded, countCreates, Store.Update_nextID,
    Store.Delete_nextID]

/-- The ids a run hands out are the consecutive values of the counter, and the
counter advances by the number of `Create` calls. -/
theorem Store.runUnbounded_createdIDs (ops : List Op) : ∀ s : Store,
    createdIDs (s.runUnbounded ops).1 =
      (List.range (countCreates ops)).map (fun (i : Nat) => s.nextID + (i : Int)) ∧
    (s.runUnbounded ops).2.nextID = s.nextID + (countCreates ops : Nat) := by
  induction ops with
  | nil => intro s; simp [Store.runUnbounded, createdIDs, countCreates]
  | cons op ops ih =>
    intro s
    have hs := Store.stepUnbounded_nextID s op
    obtain ⟨h₁, h₂⟩ := ih (s.stepUnbounded op).2
    cases op with
    | create item t₁ t₂ =>
      simp only [countCreates, Nat.zero_add, Nat.cast_one] at hs
      refine ⟨?_, ?_⟩
      · simp only [Store.runUnbounded, countCreates]
        have : (s.stepUnbounded (Op.create item t₁ t₂)).1 = Ret.created (s.CreateUnbounded item t₁ t₂).1 := rfl
        rw [this, createdIDs, h₁, hs, List.range_succ_eq_map, List.map_cons, List.map_map]
        simp only [Store.CreateUnbounded, Store.Create_fst, Nat.cast_zero, add_zero, List.cons.injEq, true_and]
        apply List.map_congr_left
        intro i _
        simp only [Function.comp, Nat.cast_succ]
        ring
      · simp only [Store.runUnbounded, countCreates]
        rw [h₂, hs]
        push_cast
        ring
    | getAll =>
      simp only [countCreates, Nat.cast_zero, add_zero] at hs
      refine ⟨?_, ?_⟩
      · simp only [Store.runUnbounded, countCreates]
        have : (s.stepUnbounded Op.getAll).1 = Ret.all s.GetAll := rfl
        rw [this, createdIDs, h₁, hs]
      · simp only [Store.runUnbounded, countCreates]; rw [h₂, hs]
    | getByID id =>
      simp only [countCreates, Nat.cast_zero, add_zero] at hs
      refine ⟨?_, ?_⟩
      · simp only [Store.runUnbounded, countCreates]
        have : (s.stepUnbounded (Op.getByID id)).1 = Ret.got (s.GetByID id) := rfl
        rw [this, createdIDs, h₁, hs]
      · simp only [Store.runUnbounded, countCreates]; rw [h₂, hs]
    | update id updated t =>
      simp only [countCreates, Nat.cast_zero, add_zero] at hs
      refine ⟨?_, ?_⟩
      · simp only [Store.runUnbounded, countCreates]
        have : (s.stepUnbounded (Op.update id updated t)).1 = Ret.updated (s.Update id updated t).1 := rfl
        rw [this, createdIDs, h₁, hs]
      · simp only [Store.runUnbounded, countCreates]; rw [h₂, hs]
    | delete id =>
      simp only [countCreates, Nat.cast_zero, add_zero] at hs
      refine ⟨?_, ?_⟩
      · simp only [Store.runUnbounded, countCreates]
        have : (s.stepUnbounded (Op.delete id)).1 = Ret.deleted (s.Delete id).1 := rfl
        rw [this, createdIDs, h₁, hs]
      · simp only [Store.runUnbounded, countCreates]; rw [h₂, hs]

theorem Store.Create_ID (s : Store) (item : Item) (t₁ t₂ : Time) :
    (s.Create item t₁ t₂).1.ID = s.nextID := rfl

theorem Store.Create_nextID (s : Store) (item : Item) (t₁ t₂ : Time) :
    (s.Create item t₁ t₂).2.nextID = intInc s.nextID := rfl

theorem Store.after_singleton_create (s : Store) (item : Item) (t₁ t₂ : Time) :
    s.after [Op.create item t₁ t₂] = (s.Create item t₁ t₂).2 := rfl

theorem Store.Delete_true (s : Store) (id : Int) (h : (s.Delete id).1 = true) :
    ∃ old, s.GetByID id = some old := by
  cases hk : s.items.lookup id with
  | none => rw [Store.Delete_of_absent s id hk] at h; cases h
  | some old => exact ⟨old, hk⟩

theorem Store.Delete_GetByID (s : Store) (id : Int) : (s.Delete id).2.GetByID id = none := by
  cases hk : s.items.lookup id with
  | none => rw [Store.Delete_of_absent s id hk]; exact hk
  | some old => rw [Store.Delete_of_present s id old hk]; simp [Store.GetByID]

theorem create_then_getByID_aux (s : Store) (item : Item) (t₁ t₂ : Time) :
    (s.Create item t₁ t₂).2.GetByID s.nextID = some (s.Create item t₁ t₂).1 := by
  simp [Store.GetByID, Store.Create_snd]

/-! ## The counter and its wrap-around -/

theorem intInc_of_lt (x : Int) (h : x < MaxInt) : intInc x = x + 1 := by
  unfold intInc
  rw [if_neg (ne_of_lt h)]

theorem intInc_MaxInt : intInc MaxInt = MinInt := by
  unfold intInc
  rw [if_pos rfl]

/-- Below the greatest `int`, counting up is plain addition. -/
theorem intInc_iterate_of_le (n : Nat) : ∀ x : Int, x + (n : Int) ≤ MaxInt →
    intInc^[n] x = x + (n : Int) := by
  induction n with
  | zero => intro x _; simp
  | succ n ih =>
    intro x hx
    rw [Function.iterate_succ_apply, intInc_of_lt x (by push_cast at hx; omega),
      ih (x + 1) (by push_cast at hx; omega)]
    push_cast
    ring

/-- Counting up `n` times from an `int` is addition modulo 2^64, in two's
complement. -/
theorem intInc_iterate_wrap (x : Int) (h₁ : MinInt ≤ x) (h₂ : x ≤ MaxInt) (n : Nat) :
    intInc^[n] x =
      (x + 9223372036854775808 + (n : Int)) % 18446744073709551616 - 9223372036854775808 := by
  unfold MinInt at h₁
  unfold MaxInt at h₂
  induction n with
  | zero =>
    simp only [Function.iterate_zero, id_eq, Nat.cast_zero, add_zero]
    omega
  | succ n ih =>
    rw [Function.iterate_succ_apply', ih]
    unfold intInc MaxInt MinInt
    push_cast
    split <;> omega

theorem Store.step_nextID (s : Store) (op : Op) :
    (s.step op).2.nextID = intInc^[countCreates [op]] s.nextID := by
  cases op <;> simp [Store.step, countCreates, Store.Create_snd, Store.Update_nextID,
    Store.Delete_nextID]

theorem countCreates_cons (op : Op) (ops : List Op) :
    countCreates (op :: ops) = countCreates [op] + countCreates ops := by
  cases op <;> simp [countCreates, Nat.add_comm]

/-- The ids a run hands out are the successive values of the counter, and the
counter is incremented once for each `Create` call. -/
theorem Store.run_createdIDs (ops : List Op) : ∀ s : Store,
    createdIDs (s.run ops).1 =
      (List.range (countCreates ops)).map (fun (i : Nat) => intInc^[i] s.nextID) ∧
    (s.run ops).2.nextID = intInc^[countCreates ops] s.nextID := by
  induction ops with
  | nil => intro s; simp [Store.run, createdIDs, countCreates]
  | cons op ops ih =>
    intro s
    have hs := Store.step_nextID s op
    obtain ⟨h₁, h₂⟩ := ih (s.step op).2
    cases op with
    | create item t₁ t₂ =>
      simp only [countCreates, Function.iterate_succ, Function.iterate_zero, Function.comp,
        id_eq, Nat.zero_add] at hs
      refine ⟨?_, ?_⟩
      · simp only [Store.run, countCreates]
        have : (s.step (Op.create item t₁ t₂)).1 = Ret.created (s.Create item t₁ t₂).1 := rfl
        rw [this, createdIDs, h₁, hs, List.range_succ_eq_map, List.map_cons, List.map_map]
        simp only [Store.Create_fst, Function.iterate_zero, id_eq, List.cons.injEq, true_and]
        apply List.map_congr_left
        intro i _
        simp only [Function.comp, Function.iterate_succ_apply]
      · simp only [Store.run, countCreates]
        rw [h₂, hs, Function.iterate_succ_apply]
    | getAll =>
      simp only [countCreates, Function.iterate_zero, id_eq] at hs
      exact ⟨by simp only [Store.run, countCreates]; rw [show (s.step Op.getAll).1 =
        Ret.all s.GetAll from rfl, createdIDs, h₁, hs],
        by simp only [Store.run, countCreates]; rw [h₂, hs]⟩
    | getByID id =>
      simp only [countCreates, Function.iterate_zero, id_eq] at hs
      exact ⟨by simp only [Store.run, countCreates]; rw [show (s.step (Op.getByID id)).1 =
        Ret.got (s.GetByID id) from rfl, createdIDs, h₁, hs],
        by simp only [Store.run, countCreates]; rw [h₂, hs]⟩
    | update id updated t =>
      simp only [countCreates, Function.iterate_zero, id_eq] at hs
      exact ⟨by simp only [Store.run, countCreates]; rw [show (s.step (Op.update id updated t)).1 =
        Ret.updated (s.Update id updated t).1 from rfl, createdIDs, h₁, hs],
        by simp only [Store.run, countCreates]; rw [h₂, hs]⟩
    | delete id =>
      simp only [countCreates, Function.iterate_zero, id_eq] at hs
      exact ⟨by simp only [Store.run, countCreates]; rw [show (s.step (Op.delete id)).1 =
        Ret.deleted (s.Delete id).1 from rfl, createdIDs, h₁, hs],
        by simp only [Store.run, countCreates]; rw [h₂, hs]⟩

/-! ## Runs, clock readings and timestamps -/

theorem Store.after_cons (s : Store) (op : Op) (ops : List Op) :
    s.after (op :: ops) = (s.step op).2.after ops := rfl

theorem Store.after_append (pre : List Op) : ∀ (s : Store) (post : List Op),
    s.after (pre ++ post) = (s.after pre).after post := by
  induction pre with
  | nil => intro s post; rfl
  | cons op pre ih =>
    intro s post
    rw [List.cons_append, Store.after_cons, ih, Store.after_cons]

theorem Store.readings_append (pre : List Op) : ∀ (s : Store) (post : List Op),
    s.readings (pre ++ post) = s.readings pre ++ (s.after pre).readings post := by
  induction pre with
  | nil => intro s post; rfl
  | cons op pre ih =>
    intro s post
    rw [List.cons_append, Store.after_cons]
    simp only [Store.readings]
    rw [ih, List.append_assoc]

/-- One call keeps the stored timestamps ordered and no later than the readings
still to come, when the readings are non-decreasing. -/
theorem Store.step_timesBefore (s : Store) (op : Op) (rest : List Time)
    (hp : (s.readingsOf op ++ rest).Pairwise (fun a b => a ≤ b))
    (hb : s.TimesBefore (s.readingsOf op ++ rest)) :
    (s.step op).2.TimesBefore rest := by
  intro k item hk
  cases op with
  | create input t₁ t₂ =>
    simp only [Store.readingsOf, List.cons_append, List.nil_append, List.pairwise_cons,
      List.mem_cons] at hp hb
    by_cases hkn : k = s.nextID
    · subst hkn
      have hc : (s.step (Op.create input t₁ t₂)).2.GetByID s.nextID =
          some (s.Create input t₁ t₂).1 := create_then_getByID_aux s input t₁ t₂
      rw [hc] at hk
      cases hk
      exact ⟨hp.1 t₂ (Or.inl rfl), fun r hr => hp.2.1 r hr⟩
    · have hc : (s.step (Op.create input t₁ t₂)).2.GetByID k = s.GetByID k := by
        simp [Store.step, Store.GetByID, Store.Create_snd, AList.lookup_insert_ne hkn]
      rw [hc] at hk
      obtain ⟨h₁, h₂⟩ := hb k item hk
      exact ⟨h₁, fun r hr => h₂ r (by simp [hr])⟩
  | getAll => exact hb k item hk
  | getByID id => exact hb k item hk
  | update id updated t =>
    have hk' : (s.Update id updated t).2.GetByID k = some item := hk
    cases hid : s.items.lookup id with
    | none =>
      rw [Store.Update_of_absent s id updated t hid] at hk'
      simp only [Store.readingsOf, Store.GetByID, hid, List.nil_append] at hb
      exact hb k item hk'
    | some old =>
      rw [Store.Update_of_present s id updated t old hid] at hk'
      simp only [Store.readingsOf, Store.GetByID, hid, List.cons_append, List.nil_append,
        List.pairwise_cons] at hp hb
      by_cases hki : k = id
      · subst hki
        simp only [Store.GetByID, AList.lookup_insert, Option.some.injEq] at hk'
        subst hk'
        obtain ⟨h₁, h₂⟩ := hb k old hid
        exact ⟨le_trans h₁ (h₂ t (List.mem_cons_self _ _)), fun r hr => hp.1 r hr⟩
      · simp only [Store.GetByID, AList.lookup_insert_ne hki] at hk'
        obtain ⟨h₁, h₂⟩ := hb k item hk'
        exact ⟨h₁, fun r hr => h₂ r (List.mem_cons_of_mem _ hr)⟩
  | delete id =>
    have hk' : (s.Delete id).2.GetByID k = some item := hk
    cases hid : s.items.lookup id with
    | none =>
      rw [Store.Delete_of_absent s id hid] at hk'
      exact hb k item hk'
    | some old =>
      rw [Store.Delete_of_present s id old hid] at hk'
      by_cases hki : k = id
      · subst hki
        simp [Store.GetByID] at hk'
      · simp only [Store.GetByID, AList.lookup_erase_ne hki] at hk'
        exact hb k item hk'

/-- A run keeps the stored timestamps ordered and no later than the readings
still to come, when the readings are non-decreasing. -/
theorem Store.after_timesBefore (pre : List Op) : ∀ (s : Store) (rest : List Time),
    (s.readings pre ++ rest).Pairwise (fun a b => a ≤ b) →
    s.TimesBefore (s.readings pre ++ rest) →
    (s.after pre).TimesBefore rest := by
  induction pre with
  | nil => intro s rest _ hb; exact hb
  | cons op pre ih =>
    intro s rest hp hb
    simp only [Store.readings, List.append_assoc] at hp hb
    rw [Store.after_cons]
    exact ih (s.step op).2 rest (List.pairwise_append.mp hp).2.1
      (Store.step_timesBefore s op _ hp hb)

theorem NewStore_timesBefore (future : List Time) : NewStore.TimesBefore future := by
  intro k item hk
  simp [Store.GetByID, NewStore] at hk

/-! ## Names of stored items -/

theorem Store.Create_namesNonEmpty (s : Store) (item : Item) (t₁ t₂ : Time)
    (hn : item.Name ≠ "") (h : s.NamesNonEmpty) : (s.Create item t₁ t₂).2.NamesNonEmpty := by
  intro k stored hk
  by_cases hkn : k = s.nextID
  · subst hkn
    rw [create_then_getByID_aux] at hk
    cases hk
    exact hn
  · simp only [Store.GetByID, Store.Create_snd, AList.lookup_insert_ne hkn] at hk
    exact h k stored hk

theorem Store.Update_namesNonEmpty (s : Store) (id : Int) (updated : Item) (t : Time)
    (hn : updated.Name ≠ "") (h : s.NamesNonEmpty) : (s.Update id updated t).2.NamesNonEmpty := by
  intro k stored hk
  cases hid : s.items.lookup id with
  | none =>
    rw [Store.Update_of_absent s id updated t hid] at hk
    exact h k stored hk
  | some old =>
    rw [Store.Update_of_present s id updated t old hid] at hk
    by_cases hki : k = id
    · subst hki
      simp only [Store.GetByID, AList.lookup_insert, Option.some.injEq] at hk
      subst hk
      exact hn
    · simp only [Store.GetByID, AList.lookup_insert_ne hki] at hk
      exact h k stored hk

theorem Store.Delete_namesNonEmpty (s : Store) (id : Int) (h : s.NamesNonEmpty) :
    (s.Delete id).2.NamesNonEmpty := by
  intro k stored hk
  cases hid : s.items.lookup id with
  | none =>
    rw [Store.Delete_of_absent s id hid] at hk
    exact h k stored hk
  | some old =>
    rw [Store.Delete_of_present s id old hid] at hk
    by_cases hki : k = id
    · subst hki
      simp [Store.GetByID] at hk
    · simp only [Store.GetByID, AList.lookup_erase_ne hki] at hk
      exact h k stored hk

/-- The store after the create handler: unchanged, or the result of a `Create` of
an item with a non-empty name. -/
theorem API.handleCreateItem_store (c : Codec) (api : API) (w : ResponseWriter) (r : Request)
    (t₁ t₂ : Time) :
    (api.handleCreateItem c w r t₁ t₂).2.store = api.store ∨
    ∃ item, item.Name ≠ "" ∧
      (api.handleCreateItem c w r t₁ t₂).2.store = (api.store.Create item t₁ t₂).2 := by
  unfold API.handleCreateItem
  split
  · exact Or.inl rfl
  · rename_i item _
    split
    · exact Or.inl rfl
    · rename_i hne
      exact Or.inr ⟨item, hne, rfl⟩

/-- The store after the update handler: unchanged, or the result of an `Update`
with a payload with a non-empty name. -/
theorem API.handleUpdateItem_store (c : Codec) (api : API) (w : ResponseWriter) (r : Request)
    (t : Time) :
    (api.handleUpdateItem c w r t).2.store = api.store ∨
    ∃ id item, item.Name ≠ "" ∧
      (api.handleUpdateItem c w r t).2.store = (api.store.Update id item t).2 := by
  unfold API.handleUpdateItem
  split
  · exact Or.inl rfl
  · rename_i id _
    split
    · exact Or.inl rfl
    · rename_i item _
      split
      · exact Or.inl rfl
      · rename_i hne
        refine Or.inr ⟨id, item, hne, ?_⟩
        split <;> rename_i heq <;> rw [heq]

/-- The store after the delete handler: unchanged, or the result of a `Delete`. -/
theorem API.handleDeleteItem_store (c : Codec) (api : API) (w : ResponseWriter) (r : Request) :
    (api.handleDeleteItem c w r).2.store = api.store ∨
    ∃ id, (api.handleDeleteItem c w r).2.store = (api.store.Delete id).2 := by
  unfold API.handleDeleteItem
  split
  · exact Or.inl rfl
  · rename_i id _
    refine Or.inr ⟨id, ?_⟩
    split <;> rename_i heq <;> rw [heq]

theorem API.handleGetItem_store (c : Codec) (api : API) (w : ResponseWriter) (r : Request) :
    (api.handleGetItem c w r).2 = api := by
  unfold API.handleGetItem
  split
  · rfl
  · split <;> rfl

/-- Serving one request keeps every stored name non-empty. -/
theorem API.serve_namesNonEmpty (c : Codec) (api : API) (call : Call)
    (h : api.store.NamesNonEmpty) : (api.serve c call).2.store.NamesNonEmpty := by
  cases call with
  | health r t => exact h
  | getItems r => exact h
  | getItem r =>
    show (api.handleGetItem c ResponseWriter.fresh r).2.store.NamesNonEmpty
    rw [API.handleGetItem_store]; exact h
  | createItem r t₁ t₂ =>
    show (api.handleCreateItem c ResponseWriter.fresh r t₁ t₂).2.store.NamesNonEmpty
    rcases API.handleCreateItem_store c api ResponseWriter.fresh r t₁ t₂ with h₀ | ⟨item, hn, h₀⟩
    · rw [h₀]; exact h
    · rw [h₀]; exact Store.Create_namesNonEmpty _ item t₁ t₂ hn h
  | updateItem r t =>
    show (api.handleUpdateItem c ResponseWriter.fresh r t).2.store.NamesNonEmpty
    rcases API.handleUpdateItem_store c api ResponseWriter.fresh r t with h₀ | ⟨id, item, hn, h₀⟩
    · rw [h₀]; exact h
    · rw [h₀]; exact Store.Update_namesNonEmpty _ id item t hn h
  | deleteItem r =>
    show (api.handleDeleteItem c ResponseWriter.fresh r).2.store.NamesNonEmpty
    rcases API.handleDeleteItem_store c api ResponseWriter.fresh r with h₀ | ⟨id, h₀⟩
    · rw [h₀]; exact h
    · rw [h₀]; exact Store.Delete_namesNonEmpty _ id h

theorem API.serveAll_namesNonEmpty (c : Codec) (calls : List Call) : ∀ api : API,
    api.store.NamesNonEmpty → (api.serveAll c calls).store.NamesNonEmpty := by
  induction calls with
  | nil => intro api h; exact h
  | cons call calls ih =>
    intro api h
    exact ih (api.serve c call).2 (API.serve_namesNonEmpty c api call h)

/-! ## Listing the store -/

theorem Store.GetAll_length (s : Store) : s.GetAll.length = s.items.keys.length := by
  simp [Store.GetAll, AList.keys, List.keys]

theorem Store.mem_GetAll (s : Store) (item : Item) :
    item ∈ s.GetAll ↔ ∃ k, s.GetByID k = some item := by
  simp only [Store.GetAll, Store.GetByID, List.mem_map]
  constructor
  · rintro ⟨⟨k, v⟩, he, rfl⟩
    exact ⟨k, AList.mem_lookup_iff.mpr he⟩
  · rintro ⟨k, hk⟩
    exact ⟨⟨k, item⟩, AList.mem_lookup_iff.mp hk, rfl⟩

theorem Store.GetAll_ids (s : Store) (h : s.KeyedByID) :
    s.GetAll.map (fun item => item.ID) = s.items.keys := by
  simp only [Store.GetAll, AList.keys, List.keys, List.map_map]
  apply List.map_congr_left
  intro e he
  exact h e he

theorem Store.KeyedByID_lookup (s : Store) (h : s.KeyedByID) (k : Int) (item : Item)
    (hk : s.GetByID k = some item) : item.ID = k :=
  h ⟨k, item⟩ (AList.mem_lookup_iff.mp hk)

/-! ## Responses of the handlers, path by path -/

theorem API.respondJSON_fresh (status : Nat) (data : Payload) :
    API.respondJSON ResponseWriter.fresh status data =
      { header := [("Content-Type", "application/json")], status := some status,
        body := [data] } := rfl

theorem API.respondError_fresh (status : Nat) (message : String) :
    API.respondError ResponseWriter.fresh status message =
      { header := [("Content-Type", "application/json")], status := some status,
        body := [Payload.object [("error", message)]] } := rfl

theorem API.handleGetItem_bad_id (c : Codec) (api : API) (w : ResponseWriter) (r : Request)
    (h : c.atoi (r.var "id") = none) :
    api.handleGetItem c w r = (API.respondError w StatusBadRequest "Invalid item ID", api) := by
  simp [API.handleGetItem, h]

theorem API.handleGetItem_absent (c : Codec) (api : API) (w : ResponseWriter) (r : Request)
    (id : Int) (h₁ : c.atoi (r.var "id") = some id) (h₂ : api.store.GetByID id = none) :
    api.handleGetItem c w r = (API.respondError w StatusNotFound "Item not found", api) := by
  simp [API.handleGetItem, h₁, h₂]

theorem API.handleGetItem_present (c : Codec) (api : API) (w : ResponseWriter) (r : Request)
    (id : Int) (item : Item) (h₁ : c.atoi (r.var "id") = some id)
    (h₂ : api.store.GetByID id = some item) :
    api.handleGetItem c w r = (API.respondJSON w StatusOK (Payload.item item), api) := by
  simp [API.handleGetItem, h₁, h₂]

theorem API.handleCreateItem_bad_body (c : Codec) (api : API) (w : ResponseWriter) (r : Request)
    (t₁ t₂ : Time) (h : c.decodeItem r.Body = none) :
    api.handleCreateItem c w r t₁ t₂ =
      (API.respondError w StatusBadRequest "Invalid request body", api) := by
  simp [API.handleCreateItem, h]

theorem API.handleCreateItem_no_name (c : Codec) (api : API) (w : ResponseWriter) (r : Request)
    (t₁ t₂ : Time) (item : Item) (h₁ : c.decodeItem r.Body = some item) (h₂ : item.Name = "") :
    api.handleCreateItem c w r t₁ t₂ =
      (API.respondError w StatusBadRequest "Name is required", api) := by
  simp [API.handleCreateItem, h₁, h₂]

theorem API.handleCreateItem_ok (c : Codec) (api : API) (w : ResponseWriter) (r : Request)
    (t₁ t₂ : Time) (item : Item) (h₁ : c.decodeItem r.Body = some item) (h₂ : item.Name ≠ "") :
    api.handleCreateItem c w r t₁ t₂ =
      (API.respondJSON w StatusCreated (Payload.item (api.store.Create item t₁ t₂).1),
       { api with store := (api.store.Create item t₁ t₂).2 }) := by
  simp [API.handleCreateItem, h₁, h₂]

theorem API.handleUpdateItem_bad_id (c : Codec) (api : API) (w : ResponseWriter) (r : Request)
    (t : Time) (h : c.atoi (r.var "id") = none) :
    api.handleUpdateItem c w r t =
      (API.respondError w StatusBadRequest "Invalid item ID", api) := by
  simp [API.handleUpdateItem, h]

theorem API.handleUpdateItem_bad_body (c : Codec) (api : API) (w : ResponseWriter) (r : Request)
    (t : Time) (id : Int) (h₁ : c.atoi (r.var "id") = some id)
    (h₂ : c.decodeItem r.Body = none) :
    api.handleUpdateItem c w r t =
      (API.respondError w StatusBadRequest "Invalid request body", api) := by
  simp [API.handleUpdateItem, h₁, h₂]

theorem API.handleUpdateItem_no_name (c : Codec) (api : API) (w : ResponseWriter) (r : Request)
    (t : Time) (id : Int) (item : Item) (h₁ : c.atoi (r.var "id") = some id)
    (h₂ : c.decodeItem r.Body = some item) (h₃ : item.Name = "") :
    api.handleUpdateItem c w r t =
      (API.respondError w StatusBadRequest "Name is required", api) := by
  simp [API.handleUpdateItem, h₁, h₂, h₃]

theorem API.handleUpdateItem_absent (c : Codec) (api : API) (w : ResponseWriter) (r : Request)
    (t : Time) (id : Int) (item : Item) (h₁ : c.atoi (r.var "id") = some id)
    (h₂ : c.decodeItem r.Body = some item) (h₃ : item.Name ≠ "")
    (h₄ : api.store.GetByID id = none) :
    api.handleUpdateItem c w r t =
      (API.respondError w StatusNotFound "Item not found", api) := by
  simp [API.handleUpdateItem, h₁, h₂, h₃, Store.Update_of_absent api.store id item t h₄]

theorem API.handleUpdateItem_present (c : Codec) (api : API) (w : ResponseWriter) (r : Request)
    (t : Time) (id : Int) (item old : Item) (h₁ : c.atoi (r.var "id") = some id)
    (h₂ : c.decodeItem r.Body = some item) (h₃ : item.Name ≠ "")
    (h₄ : api.store.GetByID id = some old) :
    api.handleUpdateItem c w r t =
      (API.respondJSON w StatusOK (Payload.item
          { old with Name := item.Name, Description := item.Description, UpdatedAt := t }),
       { api with store := (api.store.Update id item t).2 }) := by
  simp [API.handleUpdateItem, h₁, h₂, h₃, Store.Update_of_present api.store id item t old h₄]

theorem API.handleDeleteItem_bad_id (c : Codec) (api : API) (w : ResponseWriter) (r : Request)
    (h : c.atoi (r.var "id") = none) :
    api.handleDeleteItem c w r =
      (API.respondError w StatusBadRequest "Invalid item ID", api) := by
  simp [API.handleDeleteItem, h]

theorem API.handleDeleteItem_absent (c : Codec) (api : API) (w : ResponseWriter) (r : Request)
    (id : Int) (h₁ : c.atoi (r.var "id") = some id) (h₂ : api.store.GetByID id = none) :
    api.handleDeleteItem c w r =
      (API.respondError w StatusNotFound "Item not found", api) := by
  simp [API.handleDeleteItem, h₁, Store.Delete_of_absent api.store id h₂]

theorem API.handleDeleteItem_present (c : Codec) (api : API) (w : ResponseWriter) (r : Request)
    (id : Int) (old : Item) (h₁ : c.atoi (r.var "id") = some id)
    (h₂ : api.store.GetByID id = some old) :
    api.handleDeleteItem c w r =
      (w.WriteHeader StatusNoContent, { api with store := (api.store.Delete id).2 }) := by
  simp [API.handleDeleteItem, h₁, Store.Delete_of_present api.store id old h₂]

/-! ## Keys, id fields and the counter -/

theorem Store.after_nextID (s : Store) (ops : List Op) :
    (s.after ops).nextID = intInc^[countCreates ops] s.nextID :=
  (Store.run_createdIDs ops s).2

/-- One call adds no key other than the counter value of a `Create`. -/
theorem Store.step_absent (s : Store) (op : Op) (id : Int) (habs : s.GetByID id = none)
    (hne : 0 < countCreates [op] → s.nextID ≠ id) : (s.step op).2.GetByID id = none := by
  cases op with
  | create item t₁ t₂ =>
    have hne' : id ≠ s.nextID := fun h => hne (by simp [countCreates]) h.symm
    simpa [Store.step, Store.GetByID, Store.Create_snd, AList.lookup_insert_ne hne'] using habs
  | getAll => exact habs
  | getByID k => exact habs
  | update k updated t =>
    show ((s.Update k updated t).2).GetByID id = none
    cases hk : s.items.lookup k with
    | none => rw [Store.Update_of_absent s k updated t hk]; exact habs
    | some old =>
      rw [Store.Update_of_present s k updated t old hk]
      have hki : id ≠ k := by
        rintro rfl
        simp [Store.GetByID, hk] at habs
      simpa [Store.GetByID, AList.lookup_insert_ne hki] using habs
  | delete k =>
    show ((s.Delete k).2).GetByID id = none
    cases hk : s.items.lookup k with
    | none => rw [Store.Delete_of_absent s k hk]; exact habs
    | some old =>
      rw [Store.Delete_of_present s k old hk]
      by_cases hki : id = k
      · subst hki; simp [Store.GetByID]
      · simpa [Store.GetByID, AList.lookup_erase_ne hki] using habs

/-- An absent id stays absent, and is not returned by a `Create`, as long as the
counter does not take its value. -/
theorem Store.absent_stays_absent (ops : List Op) : ∀ (s : Store) (id : Int),
    s.GetByID id = none → (∀ i, i < countCreates ops → intInc^[i] s.nextID ≠ id) →
    (s.after ops).GetByID id = none ∧ id ∉ createdIDs (s.run ops).1 := by
  intro s id habs hne
  refine ⟨?_, ?_⟩
  · induction ops generalizing s with
    | nil => exact habs
    | cons op ops ih =>
      rw [Store.after_cons]
      rw [countCreates_cons] at hne
      apply ih
      · apply Store.step_absent s op id habs
        intro hpos
        exact hne 0 (by omega)
      · intro i hi
        rw [Store.step_nextID, ← Function.iterate_add_apply]
        exact hne (i + countCreates [op]) (by omega)
  · rw [(Store.run_createdIDs ops s).1, List.mem_map]
    rintro ⟨i, hi, h⟩
    exact hne i (List.mem_range.mp hi) h

/-- A run of `Create` calls leaves the entry of a key alone as long as the
counter does not take the key's value. -/
theorem Store.after_createsOnly_lookup (n : Nat) : ∀ (s : Store) (k : Int),
    (∀ i, i < n → intInc^[i] s.nextID ≠ k) →
    (s.after (createsOnly n)).GetByID k = s.GetByID k := by
  induction n with
  | zero => intro s k _; unfold createsOnly; rfl
  | succ n ih =>
    intro s k hne
    have hcons : createsOnly (n + 1) = Op.create sampleItem 0 0 :: createsOnly n := by
      unfold createsOnly; rfl
    rw [hcons, Store.after_cons, ih]
    · have hk : k ≠ s.nextID := fun h => hne 0 (by omega) h.symm
      simp [Store.step, Store.GetByID, Store.Create_snd, AList.lookup_insert_ne hk]
    · intro i hi
      rw [Store.step_nextID, ← Function.iterate_add_apply]
      exact hne (i + 1) (by omega)

theorem countCreates_createsOnly (n : Nat) : countCreates (createsOnly n) = n := by
  induction n with
  | zero => unfold createsOnly; rfl
  | succ n ih =>
    have hcons : createsOnly (n + 1) = Op.create sampleItem 0 0 :: createsOnly n := by
      unfold createsOnly; rfl
    rw [hcons, countCreates, ih]

theorem createsOnly_succ_append (n : Nat) :
    createsOnly (n + 1) = createsOnly n ++ [Op.create sampleItem 0 0] := by
  unfold createsOnly
  exact List.replicate_succ' n _

theorem NewStore_idsBelowCounter : NewStore.IdsBelowCounter := by
  refine ⟨by simp [NewStore], fun k item hk => ?_⟩
  simp [Store.GetByID, NewStore] at hk

/-- One call keeps every key equal to the id field of its item, at least 1 and
below the counter, unless it is a `Create` at the greatest `int`. -/
theorem Store.step_idsBelowCounter (s : Store) (op : Op) (h : s.IdsBelowCounter)
    (hn : s.nextID + (countCreates [op] : Int) ≤ MaxInt) :
    (s.step op).2.IdsBelowCounter := by
  obtain ⟨h₁, h₂⟩ := h
  cases op with
  | create input t₁ t₂ =>
    have hlt : s.nextID < MaxInt := by
      simp only [countCreates] at hn
      push_cast at hn
      omega
    have hn' : (s.step (Op.create input t₁ t₂)).2.nextID = s.nextID + 1 := by
      simp only [Store.step, Store.Create_snd]
      exact intInc_of_lt s.nextID hlt
    refine ⟨by rw [hn']; omega, fun k item hk => ?_⟩
    rw [hn']
    by_cases hkn : k = s.nextID
    · subst hkn
      have hc : (s.step (Op.create input t₁ t₂)).2.GetByID s.nextID =
          some (s.Create input t₁ t₂).1 := create_then_getByID_aux s input t₁ t₂
      rw [hc] at hk
      cases hk
      exact ⟨rfl, h₁, by omega⟩
    · have hc : (s.step (Op.create input t₁ t₂)).2.GetByID k = s.GetByID k := by
        simp [Store.step, Store.GetByID, Store.Create_snd, AList.lookup_insert_ne hkn]
      rw [hc] at hk
      obtain ⟨a, b, d⟩ := h₂ k item hk
      exact ⟨a, b, by omega⟩
  | getAll => exact ⟨h₁, h₂⟩
  | getByID id => exact ⟨h₁, h₂⟩
  | update id updated t =>
    have hn' : (s.step (Op.update id updated t)).2.nextID = s.nextID :=
      Store.Update_nextID s id updated t
    refine ⟨by rw [hn']; exact h₁, fun k item hk => ?_⟩
    rw [hn']
    have hk' : (s.Update id updated t).2.GetByID k = some item := hk
    cases hid : s.items.lookup id with
    | none =>
      rw [Store.Update_of_absent s id updated t hid] at hk'
      exact h₂ k item hk'
    | some old =>
      rw [Store.Update_of_present s id updated t old hid] at hk'
      by_cases hki : k = id
      · subst hki
        simp only [Store.GetByID, AList.lookup_insert, Option.some.injEq] at hk'
        subst hk'
        exact h₂ k old hid
      · simp only [Store.GetByID, AList.lookup_insert_ne hki] at hk'
        exact h₂ k item hk'
  | delete id =>
    have hn' : (s.step (Op.delete id)).2.nextID = s.nextID := Store.Delete_nextID s id
    refine ⟨by rw [hn']; exact h₁, fun k item hk => ?_⟩
    rw [hn']
    have hk' : (s.Delete id).2.GetByID k = some item := hk
    cases hid : s.items.lookup id with
    | none =>
      rw [Store.Delete_of_absent s id hid] at hk'
      exact h₂ k item hk'
    | some old =>
      rw [Store.Delete_of_present s id old hid] at hk'
      by_cases hki : k = id
      · subst hki
        simp [Store.GetByID] at hk'
      · simp only [Store.GetByID, AList.lookup_erase_ne hki] at hk'
        exact h₂ k item hk'

/-- A run keeps the keys at least 1 and below the counter, which advances by one
for each `Create`, as long as the counter stays within the `int` range. -/
theorem Store.after_idsBelowCounter (ops : List Op) : ∀ s : Store,
    s.IdsBelowCounter → s.nextID + (countCreates ops : Int) ≤ MaxInt →
    (s.after ops).IdsBelowCounter ∧
    (s.after ops).nextID = s.nextID + (countCreates ops : Int) := by
  induction ops with
  | nil => intro s h _; exact ⟨h, by simp [Store.after, Store.run, countCreates]⟩
  | cons op ops ih =>
    intro s h hn
    rw [countCreates_cons] at hn ⊢
    push_cast at hn ⊢
    have hle : s.nextID + (countCreates [op] : Int) ≤ MaxInt := by omega
    have hstep : (s.step op).2.nextID = s.nextID + (countCreates [op] : Int) := by
      rw [Store.step_nextID]
      exact intInc_iterate_of_le _ _ hle
    rw [Store.after_cons]
    obtain ⟨a, b⟩ := ih (s.step op).2 (Store.step_idsBelowCounter s op h hle)
      (by rw [hstep]; omega)
    exact ⟨a, by rw [b, hstep]; ring⟩

/-- One call keeps every key equal to the id field of its item. -/
theorem Store.step_keyed (s : Store) (op : Op)
    (h : ∀ k item, s.GetByID k = some item → item.ID = k) :
    ∀ k item, (s.step op).2.GetByID k = some item → item.ID = k := by
  intro k item hk
  cases op with
  | create input t₁ t₂ =>
    by_cases hkn : k = s.nextID
    · subst hkn
      have hc : (s.step (Op.create input t₁ t₂)).2.GetByID s.nextID =
          some (s.Create input t₁ t₂).1 := create_then_getByID_aux s input t₁ t₂
      rw [hc] at hk
      cases hk
      rfl
    · have hc : (s.step (Op.create input t₁ t₂)).2.GetByID k = s.GetByID k := by
        simp [Store.step, Store.GetByID, Store.Create_snd, AList.lookup_insert_ne hkn]
      rw [hc] at hk
      exact h k item hk
  | getAll => exact h k item hk
  | getByID id => exact h k item hk
  | update id updated t =>
    have hk' : (s.Update id updated t).2.GetByID k = some item := hk
    cases hid : s.items.lookup id with
    | none =>
      rw [Store.Update_of_absent s id updated t hid] at hk'
      exact h k item hk'
    | some old =>
      rw [Store.Update_of_present s id updated t old hid] at hk'
      by_cases hki : k = id
      · subst hki
        simp only [Store.GetByID, AList.lookup_insert, Option.some.injEq] at hk'
        subst hk'
        exact h k old hid
      · simp only [Store.GetByID, AList.lookup_insert_ne hki] at hk'
        exact h k item hk'
  | delete id =>
    have hk' : (s.Delete id).2.GetByID k = some item := hk
    cases hid : s.items.lookup id with
    | none =>
      rw [Store.Delete_of_absent s id hid] at hk'
      exact h k item hk'
    | some old =>
      rw [Store.Delete_of_present s id old hid] at hk'
      by_cases hki : k = id
      · subst hki
        simp [Store.GetByID] at hk'
      · simp only [Store.GetByID, AList.lookup_erase_ne hki] at hk'
        exact h k item hk'

theorem Store.after_keyed (ops : List Op) : ∀ s : Store,
    (∀ k item, s.GetByID k = some item → item.ID = k) →
    ∀ k item, (s.after ops).GetByID k = some item → item.ID = k := by
  induction ops with
  | nil => intro s h; exact h
  | cons op ops ih =>
    intro s h
    rw [Store.after_cons]
    exact ih _ (Store.step_keyed s op h)

/-- In every state reached from a new store each key holds an item whose id
field is that key. -/
theorem NewStore_after_keyedByID (ops : List Op) : (NewStore.after ops).KeyedByID := by
  intro e he
  have hk : (NewStore.after ops).GetByID e.1 = some e.2 :=
    AList.mem_lookup_iff.mpr (by simpa using he)
  refine Store.after_keyed ops NewStore (fun k item h => ?_) e.1 e.2 hk
  simp [Store.GetByID, NewStore] at h

/-! ## Long runs of `Create` calls on a new store -/

theorem NewStore_after_createsOnly_nextID (n : Nat) :
    (NewStore.after (createsOnly n)).nextID =
      (9223372036854775809 + (n : Int)) % 18446744073709551616 - 9223372036854775808 := by
  rw [Store.after_nextID, countCreates_createsOnly]
  have h := intInc_iterate_wrap 1 (by unfold MinInt; omega) (by unfold MaxInt; omega) n
  rw [show NewStore.nextID = 1 from rfl, h]
  omega

/-- The first item created on a new store stays under key 1 for as long as the
counter does not come back to 1. -/
theorem NewStore_after_createsOnly_first (n : Nat) (hn : (n : Int) < 18446744073709551616) :
    (NewStore.after (createsOnly (n + 1))).GetByID 1 =
      some { ID := 1, Name := "A", Description := "first", CreatedAt := 0, UpdatedAt := 0 } := by
  have hcons : createsOnly (n + 1) = Op.create sampleItem 0 0 :: createsOnly n := by
    unfold createsOnly; rfl
  rw [hcons, Store.after_cons, Store.after_createsOnly_lookup]
  · rfl
  · intro i hi
    have h := intInc_iterate_wrap 2 (by unfold MinInt; omega) (by unfold MaxInt; omega) i
    rw [show (NewStore.step (Op.create sampleItem 0 0)).2.nextID = 2 from rfl, h]
    omega

/-- The listing of a store in which every key holds an item whose id field is
that key. -/
theorem Store.getAll_of_keyed (s : Store) (out : List Item) (hk : s.KeyedByID)
    (hout : s.GetAllResult out) :
    out.length = s.items.keys.length ∧
    (out.map (fun item => item.ID)).Nodup ∧
    (∀ item ∈ out, out.count item = 1) ∧
    (∀ item, item ∈ out ↔ s.GetByID item.ID = some item) ∧
    (s.items = ∅ → out = []) := by
  have hperm : out.Perm s.GetAll := hout
  have hmem : ∀ item, item ∈ out ↔ ∃ k, s.GetByID k = some item := fun item =>
    (hperm.mem_iff).trans (Store.mem_GetAll s item)
  have hids : (out.map (fun item => item.ID)).Nodup := by
    rw [(hperm.map _).nodup_iff, Store.GetAll_ids s hk]
    exact s.items.keys_nodup
  refine ⟨by rw [hperm.length_eq, Store.GetAll_length], hids, ?_, ?_, ?_⟩
  · intro item hi
    exact List.count_eq_one_of_mem (List.Nodup.of_map _ hids) hi
  · intro item
    rw [hmem]
    constructor
    · rintro ⟨k, h⟩
      rw [Store.KeyedByID_lookup s hk k item h]
      exact h
    · intro h
      exact ⟨item.ID, h⟩
  · intro he
    have : s.GetAll = [] := by simp [Store.GetAll, he]
    rw [this] at hperm
    exact hperm.eq_nil

/-! ## The claims -/

/-- C1: with ids taken as unbounded integers, for every finite sequence of store
calls applied to a new store, the k-th `Create` call returns id k: the ids
returned by the `Create` calls, in call order, are 1, 2, ..., and so strictly
increasing and pairwise distinct, whatever calls are interleaved. The run with
the 64-bit counter returns the same ids as long as it has at most 2^63 - 1
`Create` calls. -/
theorem create_ids_consecutive (ops : List Op) :
    createdIDs (NewStore.runUnbounded ops).1 =
      (List.range (countCreates ops)).map (fun (i : Nat) => (i : Int) + 1) ∧
    (createdIDs (NewStore.runUnbounded ops).1).Pairwise (fun a b => a < b) ∧
    (createdIDs (NewStore.runUnbounded ops).1).Nodup ∧
    ((countCreates ops : Int) ≤ MaxInt →
      createdIDs (NewStore.run ops).1 = createdIDs (NewStore.runUnbounded ops).1) := by
  have h : createdIDs (NewStore.runUnbounded ops).1 =
      (List.range (countCreates ops)).map (fun (i : Nat) => (i : Int) + 1) := by
    rw [(Store.runUnbounded_createdIDs ops NewStore).1]
    apply List.map_congr_left
    intro i _
    simp only [NewStore]
    ring
  have hp : (createdIDs (NewStore.runUnbounded ops).1).Pairwise (fun a b => a < b) := by
    rw [h, List.pairwise_map]
    exact (List.pairwise_lt_range _).imp (fun {a b} hab => by have : a < b := hab; omega)
  refine ⟨h, hp, hp.imp (fun hab => ne_of_lt hab), fun hle => ?_⟩
  rw [h, (Store.run_createdIDs ops NewStore).1]
  apply List.map_congr_left
  intro i hi
  have hi' := List.mem_range.mp hi
  rw [show NewStore.nextID = 1 from rfl, intInc_iterate_of_le i 1 (by omega)]
  ring

/-- C1 at a concrete input: the run with the 64-bit counter of two `Create`
calls around a `Delete`. -/
theorem create_ids_consecutive_witness :
    createdIDs (NewStore.run
      [Op.create sampleItem 1 1, Op.delete 1, Op.create sampleItem 2 2]).1 = [1, 2] :=
  (((create_ids_consecutive
      [Op.create sampleItem 1 1, Op.delete 1, Op.create sampleItem 2 2]).2.2.2
      (by decide)).trans
    (create_ids_consecutive
      [Op.create sampleItem 1 1, Op.delete 1, Op.create sampleItem 2 2]).1).trans (by decide)

/-- C2: for every store state and every input item, if `Create` returns item c,
then `GetByID` of c's id on the resulting store finds an item equal to c in all
five fields. -/
theorem create_then_getByID (s : Store) (item : Item) (t₁ t₂ : Time) :
    (s.Create item t₁ t₂).2.GetByID (s.Create item t₁ t₂).1.ID = some (s.Create item t₁ t₂).1 := by
  simp [Store.GetByID, Store.Create_snd, Store.Create_fst]

/-- C3: for every store state, every id that is not a key of the store and every
payload, `Update` returns not-found and leaves the store exactly as it was:
same counter, same items, nothing added. -/
theorem update_absent_unchanged (s : Store) (id : Int) (updated : Item) (t : Time)
    (h : id ∉ s.items) :
    s.Update id updated t = (none, s) ∧
    (s.Update id updated t).2.nextID = s.nextID ∧
    (s.Update id updated t).2.GetAll = s.GetAll ∧
    ∀ k, (s.Update id updated t).2.GetByID k = s.GetByID k := by
  have h₀ := Store.Update_of_absent s id updated t (AList.lookup_eq_none.mpr h)
  rw [h₀]
  exact ⟨rfl, rfl, rfl, fun _ => rfl⟩

/-- C3 at a concrete input: an `Update` of the absent id 3 on a store holding
item 1. -/
theorem update_absent_unchanged_witness :
    (3 : Int) ∉ oneItemStore.items ∧
    oneItemStore.Update 3 sampleItem 20 = (none, oneItemStore) :=
  ⟨by decide, (update_absent_unchanged oneItemStore 3 sampleItem 20 (by decide)).1⟩

/-- C4, the claim as stated fails: item 1 is created and deleted, `GetByID(1)` is
not-found, and the last of 2^64 later `Create` calls, the counter having gone
round the 64-bit range, returns id 1, which `GetByID(1)` then finds. -/
theorem deleted_id_reissued_after_wrap :
    ((NewStore.after [Op.create sampleItem 0 0]).Delete 1).1 = true ∧
    ((NewStore.after [Op.create sampleItem 0 0]).Delete 1).2.GetByID 1 = none ∧
    (1 : Int) ∈ createdIDs (((NewStore.after [Op.create sampleItem 0 0]).Delete 1).2.run
      (createsOnly 18446744073709551616)).1 ∧
    (((NewStore.after [Op.create sampleItem 0 0]).Delete 1).2.after
      (createsOnly 18446744073709551616)).GetByID 1 ≠ none := by
  have hB : ((NewStore.after [Op.create sampleItem 0 0]).Delete 1).2.nextID = 2 := by decide
  have hw := intInc_iterate_wrap 2 (by unfold MinInt; omega) (by unfold MaxInt; omega)
    18446744073709551615
  have hlast : intInc^[18446744073709551615] 2 = 1 := by rw [hw]; norm_num
  refine ⟨by decide, by decide, ?_, ?_⟩
  · rw [(Store.run_createdIDs _ _).1, countCreates_createsOnly, List.mem_map, hB]
    exact ⟨18446744073709551615, List.mem_range.mpr (by norm_num), hlast⟩
  · have hsplit : createsOnly 18446744073709551616 =
        createsOnly 18446744073709551615 ++ [Op.create sampleItem 0 0] :=
      createsOnly_succ_append 18446744073709551615
    have hn : (((NewStore.after [Op.create sampleItem 0 0]).Delete 1).2.after
        (createsOnly 18446744073709551615)).nextID = 1 := by
      rw [Store.after_nextID, countCreates_createsOnly, hB, hlast]
    have hc := create_then_getByID_aux
      (((NewStore.after [Op.create sampleItem 0 0]).Delete 1).2.after
        (createsOnly 18446744073709551615)) sampleItem 0 0
    rw [hn] at hc
    rw [hsplit, Store.after_append, Store.after_singleton_create, hc]
    exact Option.some_ne_none _

/-- C4, amended: for every store state and every id, `GetByID(id)` after
`Delete(id)` is not-found; in a state reached from a new store, an id that
`Delete` removed stays not-found after any later calls, and no later `Create`
returns it, as long as at most 2^63 - 1 `Create` calls are made in all, before
and after the `Delete`. -/
theorem delete_then_getByID (s : Store) (id : Int) :
    (s.Delete id).2.GetByID id = none ∧
    (∀ pre ops : List Op, s = NewStore.after pre → (s.Delete id).1 = true →
      (countCreates pre : Int) + (countCreates ops : Int) ≤ MaxInt →
      ((s.Delete id).2.after ops).GetByID id = none ∧
      id ∉ createdIDs ((s.Delete id).2.run ops).1) := by
  refine ⟨Store.Delete_GetByID s id, fun pre ops hs hdel hbound => ?_⟩
  subst hs
  apply Store.absent_stays_absent ops _ id (Store.Delete_GetByID _ id)
  intro i hi
  have hpre : NewStore.nextID + (countCreates pre : Int) ≤ MaxInt := by
    rw [show NewStore.nextID = 1 from rfl]
    omega
  obtain ⟨hinv, hnext⟩ := Store.after_idsBelowCounter pre NewStore NewStore_idsBelowCounter hpre
  obtain ⟨old, hold⟩ := Store.Delete_true _ id hdel
  have hlt := (hinv.2 id old hold).2.2
  rw [show NewStore.nextID = 1 from rfl] at hnext
  rw [Store.Delete_nextID, intInc_iterate_of_le i _ (by rw [hnext]; omega)]
  omega

/-- C4, amended, at a concrete input: item 1 of a store with two items is
deleted and two more items are created. -/
theorem delete_then_getByID_witness :
    ((NewStore.after [Op.create sampleItem 1 1, Op.create sampleItem 2 2]).Delete 1).1 = true ∧
    (((NewStore.after [Op.create sampleItem 1 1, Op.create sampleItem 2 2]).Delete 1).2.after
      [Op.create sampleItem 3 3, Op.create sampleItem 4 4]).GetByID 1 = none ∧
    (1 : Int) ∉ createdIDs
      (((NewStore.after [Op.create sampleItem 1 1, Op.create sampleItem 2 2]).Delete 1).2.run
        [Op.create sampleItem 3 3, Op.create sampleItem 4 4]).1 :=
  ⟨by decide,
   (delete_then_getByID
      (NewStore.after [Op.create sampleItem 1 1, Op.create sampleItem 2 2]) 1).2
      [Op.create sampleItem 1 1, Op.create sampleItem 2 2]
      [Op.create sampleItem 3 3, Op.create sampleItem 4 4] rfl (by decide) (by decide)⟩

/-- C5: for every store state in which the id is present, `Update` finds it and
returns an item with the payload's name and description and the stored item's id
and created_at (the payload's id and timestamps play no part); `GetByID`
returns that item afterwards, every other item is unchanged, the key set is
unchanged and the counter is unchanged. -/
theorem update_present (s : Store) (id : Int) (updated : Item) (t : Time) (old : Item)
    (h : s.GetByID id = some old) :
    ∃ new, (s.Update id updated t).1 = some new ∧
      new.Name = updated.Name ∧ new.Description = updated.Description ∧
      new.ID = old.ID ∧ new.CreatedAt = old.CreatedAt ∧
      (∀ p : Item, p.Name = updated.Name → p.Description = updated.Description →
        s.Update id p t = s.Update id updated t) ∧
      (s.Update id updated t).2.GetByID id = some new ∧
      (∀ k, k ≠ id → (s.Update id updated t).2.GetByID k = s.GetByID k) ∧
      (∀ k, k ∈ (s.Update id updated t).2.items ↔ k ∈ s.items) ∧
      (s.Update id updated t).2.nextID = s.nextID := by
  have hmem : id ∈ s.items := AList.lookup_isSome.mp (by rw [show s.items.lookup id = some old from h]; rfl)
  refine ⟨{ old with Name := updated.Name, Description := updated.Description, UpdatedAt := t },
    by rw [Store.Update_of_present s id updated t old h], rfl, rfl, rfl, rfl, ?_, ?_, ?_, ?_, ?_⟩
  · intro p hn hd
    rw [Store.Update_of_present s id p t old h, Store.Update_of_present s id updated t old h, hn, hd]
  · rw [Store.Update_of_present s id updated t old h]
    simp [Store.GetByID]
  · intro k hk
    rw [Store.Update_of_present s id updated t old h]
    simp [Store.GetByID, AList.lookup_insert_ne hk]
  · intro k
    rw [Store.Update_of_present s id updated t old h]
    simp only [AList.mem_insert]
    constructor
    · rintro (rfl | hk)
      · exact hmem
      · exact hk
    · exact Or.inr
  · exact Store.Update_nextID s id updated t

/-- C5 at a concrete input: an `Update` of item 1 with a payload that carries
an id and timestamps of its own. -/
theorem update_present_witness :
    oneItemStore.GetByID 1 =
      some { ID := 1, Name := "A", Description := "first", CreatedAt := 10, UpdatedAt := 11 } ∧
    ∃ new, (oneItemStore.Update 1
        { ID := 9, Name := "B", Description := "second", CreatedAt := 0, UpdatedAt := 0 } 20).1
          = some new ∧
      new.Name = "B" ∧ new.Description = "second" ∧ new.ID = 1 ∧ new.CreatedAt = 10 :=
  have h := update_present oneItemStore 1
    { ID := 9, Name := "B", Description := "second", CreatedAt := 0, UpdatedAt := 0 } 20
    { ID := 1, Name := "A", Description := "first", CreatedAt := 10, UpdatedAt := 11 } (by decide)
  ⟨by decide, h.elim fun new hn => ⟨new, hn.1, hn.2.1, hn.2.2.1, hn.2.2.2.1, hn.2.2.2.2.1⟩⟩

/-- C6: when the successive clock readings of a run on a new store are
non-decreasing, every item stored at the end of the run has
created_at ≤ updated_at, and every `Update` of the run that finds its id returns
an item whose updated_at is no earlier than the one stored before that call. -/
theorem timestamps_ordered (ops : List Op)
    (h : (NewStore.readings ops).Pairwise (fun a b => a ≤ b)) :
    (∀ k item, (NewStore.after ops).GetByID k = some item →
      item.CreatedAt ≤ item.UpdatedAt) ∧
    (∀ pre post id updated t old new, ops = pre ++ Op.update id updated t :: post →
      (NewStore.after pre).GetByID id = some old →
      ((NewStore.after pre).Update id updated t).1 = some new →
      old.UpdatedAt ≤ new.UpdatedAt ∧ new.CreatedAt ≤ new.UpdatedAt ∧
      (NewStore.after (pre ++ [Op.update id updated t])).GetByID id = some new) := by
  constructor
  · intro k item hk
    have hb := Store.after_timesBefore ops NewStore [] (by simpa using h)
      (NewStore_timesBefore _)
    exact (hb k item hk).1
  · intro pre post id updated t old new hops hold hnew
    subst hops
    rw [Store.readings_append] at h
    have hb := Store.after_timesBefore pre NewStore _ h (NewStore_timesBefore _)
    obtain ⟨h₁, h₂⟩ := hb id old hold
    have ht : old.UpdatedAt ≤ t := h₂ t (by simp [Store.readings, Store.readingsOf, hold])
    rw [Store.Update_of_present _ id updated t old hold] at hnew
    simp only [Option.some.injEq] at hnew
    subst hnew
    refine ⟨ht, le_trans h₁ ht, ?_⟩
    rw [Store.after_append]
    show ((NewStore.after pre).Update id updated t).2.GetByID id = _
    rw [Store.Update_of_present _ id updated t old hold]
    simp [Store.GetByID]

/-- C6 at a concrete input: a run of two `Create`s, a `Delete` and an `Update`
with readings 1, 1, 2, 3, 5. -/
theorem timestamps_ordered_witness :
    (NewStore.readings [Op.create sampleItem 1 1, Op.create sampleItem 2 3, Op.delete 1,
      Op.update 2 Item.zero 5]).Pairwise (fun a b => a ≤ b) ∧
    (∀ k item, (NewStore.after [Op.create sampleItem 1 1, Op.create sampleItem 2 3, Op.delete 1,
      Op.update 2 Item.zero 5]).GetByID k = some item → item.CreatedAt ≤ item.UpdatedAt) ∧
    (NewStore.after [Op.create sampleItem 1 1, Op.create sampleItem 2 3, Op.delete 1,
      Op.update 2 Item.zero 5]).GetByID 2 =
        some { ID := 2, Name := "", Description := "", CreatedAt := 2, UpdatedAt := 5 } :=
  ⟨by decide,
   (timestamps_ordered [Op.create sampleItem 1 1, Op.create sampleItem 2 3, Op.delete 1,
      Op.update 2 Item.zero 5] (by decide)).1,
   by decide⟩

/-- C7: for every store state and every id, `Delete` returns true exactly when
the id was a key; then that entry alone is removed and every other entry is
unchanged; when it returns false the store is unchanged; the counter keeps its
value in both cases. -/
theorem delete_spec (s : Store) (id : Int) :
    ((s.Delete id).1 = true ↔ id ∈ s.items) ∧
    ((s.Delete id).1 = true →
      (s.Delete id).2.GetByID id = none ∧
      (∀ k, k ≠ id → (s.Delete id).2.GetByID k = s.GetByID k) ∧
      (s.Delete id).2.items.keys = s.items.keys.erase id) ∧
    ((s.Delete id).1 = false → (s.Delete id).2 = s) ∧
    (s.Delete id).2.nextID = s.nextID := by
  refine ⟨?_, ?_, ?_, Store.Delete_nextID s id⟩
  · cases hk : s.items.lookup id with
    | none =>
      rw [Store.Delete_of_absent s id hk]
      simp [AList.lookup_eq_none.mp hk]
    | some old =>
      rw [Store.Delete_of_present s id old hk]
      simp [AList.lookup_isSome.mp (by rw [hk]; rfl : (s.items.lookup id).isSome = true)]
  · cases hk : s.items.lookup id with
    | none => rw [Store.Delete_of_absent s id hk]; simp
    | some old =>
      rw [Store.Delete_of_present s id old hk]
      intro _
      refine ⟨by simp [Store.GetByID], fun k hne => ?_, by simp⟩
      simp [Store.GetByID, AList.lookup_erase_ne hne]
  · cases hk : s.items.lookup id with
    | none => rw [Store.Delete_of_absent s id hk]; simp
    | some old => rw [Store.Delete_of_present s id old hk]; simp

/-- C8, the claim as stated fails: after 2^63 - 2 `Create` calls on a new store
the counter is the greatest `int`, and the next `Create` sets it to the least
`int`, not to n + 1; after 2^64 `Create` calls the counter is 1 again while the
first item is still stored under key 1, and the next `Create` replaces it. -/
theorem create_wraps_counter_and_replaces :
    (NewStore.after (createsOnly 9223372036854775806)).nextID = 9223372036854775807 ∧
    ((NewStore.after (createsOnly 9223372036854775806)).Create Item.zero 1 1).2.nextID =
      -9223372036854775808 ∧
    (NewStore.after (createsOnly 18446744073709551616)).nextID = 1 ∧
    (NewStore.after (createsOnly 18446744073709551616)).GetByID 1 =
      some { ID := 1, Name := "A", Description := "first", CreatedAt := 0, UpdatedAt := 0 } ∧
    ((NewStore.after (createsOnly 18446744073709551616)).Create Item.zero 1 1).2.GetByID 1 =
      some { ID := 1, Name := "", Description := "", CreatedAt := 1, UpdatedAt := 1 } := by
  have hA : (NewStore.after (createsOnly 9223372036854775806)).nextID = 9223372036854775807 := by
    rw [NewStore_after_createsOnly_nextID]; norm_num
  have hZ : (NewStore.after (createsOnly 18446744073709551616)).nextID = 1 := by
    rw [NewStore_after_createsOnly_nextID]; norm_num
  refine ⟨hA, ?_, hZ, NewStore_after_createsOnly_first 18446744073709551615 (by norm_num), ?_⟩
  · rw [Store.Create_nextID, hA]
    exact intInc_MaxInt
  · have hc := create_then_getByID_aux (NewStore.after (createsOnly 18446744073709551616))
      Item.zero 1 1
    rw [Store.Create_fst, hZ] at hc
    exact hc

/-- C8, amended: for every store state with counter value n and every input
item, `Create` returns an item with id n and the input's name and description,
stores it under key n, sets the counter to n + 1, or to the least `int` when n
is the greatest, and leaves the entry of every other key unchanged; `Create` is
total and accepts an empty name. In a state reached from a new store by fewer
than 2^63 - 1 `Create` calls, n is not a key, so every previously stored entry
is unchanged, and the counter becomes n + 1 when one more `Create` is still
below that number. -/
theorem create_spec (s : Store) (item : Item) (t₁ t₂ : Time) :
    (s.Create item t₁ t₂).1.ID = s.nextID ∧
    (s.Create item t₁ t₂).1.Name = item.Name ∧
    (s.Create item t₁ t₂).1.Description = item.Description ∧
    (s.Create item t₁ t₂).2.GetByID s.nextID = some (s.Create item t₁ t₂).1 ∧
    (s.Create item t₁ t₂).2.nextID = (if s.nextID = MaxInt then MinInt else s.nextID + 1) ∧
    (∀ k, k ≠ s.nextID → (s.Create item t₁ t₂).2.GetByID k = s.GetByID k) ∧
    (s.nextID ∉ s.items → ∀ k old, s.GetByID k = some old →
      (s.Create item t₁ t₂).2.GetByID k = some old) ∧
    (∀ ops : List Op, s = NewStore.after ops → (countCreates ops : Int) < MaxInt →
      s.nextID ∉ s.items ∧
      (∀ k old, s.GetByID k = some old → (s.Create item t₁ t₂).2.GetByID k = some old) ∧
      ((countCreates ops : Int) + 1 < MaxInt →
        (s.Create item t₁ t₂).2.nextID = s.nextID + 1)) ∧
    (item.Name = "" → (s.Create item t₁ t₂).1.Name = "" ∧
      (s.Create item t₁ t₂).2.GetByID s.nextID = some (s.Create item t₁ t₂).1) := by
  have hget : (s.Create item t₁ t₂).2.GetByID s.nextID = some (s.Create item t₁ t₂).1 :=
    create_then_getByID_aux s item t₁ t₂
  have hframe : ∀ k, k ≠ s.nextID → (s.Create item t₁ t₂).2.GetByID k = s.GetByID k := by
    intro k hk
    simp [Store.GetByID, Store.Create_snd, AList.lookup_insert_ne hk]
  have hkeep : s.nextID ∉ s.items → ∀ k old, s.GetByID k = some old →
      (s.Create item t₁ t₂).2.GetByID k = some old := by
    intro hn k old hk
    have hne : k ≠ s.nextID := by
      rintro rfl
      exact hn (AList.lookup_isSome.mp
        (by rw [show s.items.lookup s.nextID = some old from hk]; rfl))
    rw [hframe k hne, hk]
  refine ⟨rfl, rfl, rfl, hget, rfl, hframe, hkeep, ?_, fun h => ⟨h, hget⟩⟩
  intro ops hs hlt
  subst hs
  have hpre : NewStore.nextID + (countCreates ops : Int) ≤ MaxInt := by
    rw [show NewStore.nextID = 1 from rfl]
    omega
  obtain ⟨hinv, hnext⟩ := Store.after_idsBelowCounter ops NewStore NewStore_idsBelowCounter hpre
  rw [show NewStore.nextID = 1 from rfl] at hnext
  have hnot : (NewStore.after ops).nextID ∉ (NewStore.after ops).items := by
    intro hmem
    obtain ⟨old, hold⟩ := Option.isSome_iff_exists.mp (AList.lookup_isSome.mpr hmem)
    have := (hinv.2 _ old hold).2.2
    omega
  refine ⟨hnot, hkeep hnot, fun hlt' => ?_⟩
  rw [Store.Create_nextID]
  exact intInc_of_lt _ (by rw [hnext]; omega)

/-- C8, amended, at a concrete input: an item with an empty name is created in
the store holding item 1 that one `Create` on a new store gives. -/
theorem create_spec_witness :
    (oneItemStore.Create Item.zero 20 21).1 =
      { ID := 2, Name := "", Description := "", CreatedAt := 20, UpdatedAt := 21 } ∧
    oneItemStore.GetByID 1 ≠ none ∧
    (2 : Int) ∉ oneItemStore.items ∧
    (oneItemStore.Create Item.zero 20 21).2.GetByID 1 = oneItemStore.GetByID 1 ∧
    (oneItemStore.Create Item.zero 20 21).2.nextID = 3 :=
  have h := (create_spec oneItemStore Item.zero 20 21).2.2.2.2.2.2.2.1
    [Op.create sampleItem 10 11] rfl (by decide)
  ⟨by decide, by decide, h.1,
   (create_spec oneItemStore Item.zero 20 21).2.2.2.2.2.1 1 (by decide),
   h.2.2 (by decide)⟩

/-- C9: in every state reached from a new store by any sequence of requests
served by the handlers, with any request inputs and any behaviour of the id
and body decoders, no stored item has an empty name. -/
theorem handlers_keep_names_nonempty (c : Codec) (environment : String) (calls : List Call)
    (k : Int) (item : Item)
    (h : ((NewAPI NewStore environment).serveAll c calls).store.GetByID k = some item) :
    item.Name ≠ "" := by
  have h₀ : (NewAPI NewStore environment).store.NamesNonEmpty := by
    intro k item hk
    simp [NewAPI, NewStore, Store.GetByID] at hk
  exact API.serveAll_namesNonEmpty c calls _ h₀ k item h

/-- C9 at a concrete input: a create with an empty name is refused, a create
with name "A" is stored, an update to an empty name is refused and an update
to name "B" is stored. -/
theorem handlers_keep_names_nonempty_witness :
    ((NewAPI NewStore "").serveAll sampleCodec
      [Call.createItem { vars := [], Body := "{}" } 1 2,
       Call.createItem { vars := [], Body := "A" } 3 4,
       Call.updateItem { vars := [("id", "1")], Body := "{}" } 5,
       Call.updateItem { vars := [("id", "1")], Body := "B" } 6]).store.GetByID 1 =
      some { ID := 1, Name := "B", Description := "", CreatedAt := 3, UpdatedAt := 6 } ∧
    ("B" : String) ≠ "" :=
  ⟨by decide,
   handlers_keep_names_nonempty sampleCodec ""
     [Call.createItem { vars := [], Body := "{}" } 1 2,
      Call.createItem { vars := [], Body := "A" } 3 4,
      Call.updateItem { vars := [("id", "1")], Body := "{}" } 5,
      Call.updateItem { vars := [("id", "1")], Body := "B" } 6] 1
     { ID := 1, Name := "B", Description := "", CreatedAt := 3, UpdatedAt := 6 } (by decide)⟩

/-- C10: for every store state reached from a new store, whatever order
`GetAll` walks the map in, its result holds each stored item exactly once and
nothing else: its length is the number of keys, no two elements share an id, and
an item is in it exactly when `GetByID` of its id returns it; the store is
unchanged, and the result for a store without items is the empty sequence. -/
theorem getAll_spec (ops : List Op) (out : List Item)
    (hout : (NewStore.after ops).GetAllResult out) :
    out.length = (NewStore.after ops).items.keys.length ∧
    (out.map (fun item => item.ID)).Nodup ∧
    (∀ item ∈ out, out.count item = 1) ∧
    (∀ item, item ∈ out ↔ (NewStore.after ops).GetByID item.ID = some item) ∧
    ((NewStore.after ops).step Op.getAll).2 = NewStore.after ops ∧
    ((NewStore.after ops).items = ∅ → out = []) ∧
    (NewStore.after ops).GetAllResult (NewStore.after ops).GetAll ∧
    NewStore.GetAll = [] := by
  obtain ⟨h₁, h₂, h₃, h₄, h₅⟩ :=
    Store.getAll_of_keyed (NewStore.after ops) out (NewStore_after_keyedByID ops) hout
  exact ⟨h₁, h₂, h₃, h₄, rfl, h₅, List.Perm.refl _, rfl⟩

/-- C10 at a concrete input: the listing of a store with items 1 and 2, walked
in the order 1, 2. -/
theorem getAll_spec_witness :
    (NewStore.after [Op.create sampleItem 1 1, Op.create Item.zero 2 3]).GetAllResult
      [{ ID := 1, Name := "A", Description := "first", CreatedAt := 1, UpdatedAt := 1 },
       { ID := 2, Name := "", Description := "", CreatedAt := 2, UpdatedAt := 3 }] ∧
    ([{ ID := 1, Name := "A", Description := "first", CreatedAt := 1, UpdatedAt := 1 },
      { ID := 2, Name := "", Description := "", CreatedAt := 2, UpdatedAt := 3 }] : List Item).length
      = (NewStore.after [Op.create sampleItem 1 1, Op.create Item.zero 2 3]).items.keys.length :=
  have hout : (NewStore.after [Op.create sampleItem 1 1, Op.create Item.zero 2 3]).GetAllResult
      [{ ID := 1, Name := "A", Description := "first", CreatedAt := 1, UpdatedAt := 1 },
       { ID := 2, Name := "", Description := "", CreatedAt := 2, UpdatedAt := 3 }] := by
    have h : (NewStore.after [Op.create sampleItem 1 1, Op.create Item.zero 2 3]).GetAll =
        [{ ID := 2, Name := "", Description := "", CreatedAt := 2, UpdatedAt := 3 },
         { ID := 1, Name := "A", Description := "first", CreatedAt := 1, UpdatedAt := 1 }] := by
      decide
    unfold Store.GetAllResult
    rw [h]
    exact List.Perm.swap _ _ _
  ⟨hout, (getAll_spec _ _ hout).1⟩

/-- C11: for every store state and every update request, the update handler
answers 400 exactly when the id text is not a valid integer, or the body cannot
be parsed, or the parsed name is empty; it answers 404 exactly when none of
those holds and the id is absent from the store; otherwise it answers 200 with
the updated item. On a 400 or 404 answer the store is unchanged. -/
theorem update_handler_spec (c : Codec) (api : API) (r : Request) (t : Time) :
    ((api.handleUpdateItem c ResponseWriter.fresh r t).1.status = some StatusBadRequest ↔
      (c.atoi (r.var "id") = none ∨ c.decodeItem r.Body = none ∨
        ∃ item, c.decodeItem r.Body = some item ∧ item.Name = "")) ∧
    ((api.handleUpdateItem c ResponseWriter.fresh r t).1.status = some StatusNotFound ↔
      ∃ id item, c.atoi (r.var "id") = some id ∧ c.decodeItem r.Body = some item ∧
        item.Name ≠ "" ∧ api.store.GetByID id = none) ∧
    ((api.handleUpdateItem c ResponseWriter.fresh r t).1.status = some StatusBadRequest ∨
      (api.handleUpdateItem c ResponseWriter.fresh r t).1.status = some StatusNotFound ∨
      ∃ id item updated, c.atoi (r.var "id") = some id ∧ c.decodeItem r.Body = some item ∧
        (api.store.Update id item t).1 = some updated ∧
        (api.handleUpdateItem c ResponseWriter.fresh r t).1.status = some StatusOK ∧
        (api.handleUpdateItem c ResponseWriter.fresh r t).1.body = [Payload.item updated] ∧
        (api.handleUpdateItem c ResponseWriter.fresh r t).2.store =
          (api.store.Update id item t).2) ∧
    ((api.handleUpdateItem c ResponseWriter.fresh r t).1.status = some StatusBadRequest ∨
      (api.handleUpdateItem c ResponseWriter.fresh r t).1.status = some StatusNotFound →
      (api.handleUpdateItem c ResponseWriter.fresh r t).2 = api) := by
  cases h₁ : c.atoi (r.var "id") with
  | none =>
    rw [API.handleUpdateItem_bad_id c api _ r t h₁, API.respondError_fresh]
    simp [StatusBadRequest, StatusNotFound]
  | some id =>
    cases h₂ : c.decodeItem r.Body with
    | none =>
      rw [API.handleUpdateItem_bad_body c api _ r t id h₁ h₂, API.respondError_fresh]
      simp [StatusBadRequest, StatusNotFound]
    | some item =>
      by_cases h₃ : item.Name = ""
      · rw [API.handleUpdateItem_no_name c api _ r t id item h₁ h₂ h₃, API.respondError_fresh]
        simp [StatusBadRequest, StatusNotFound, h₃]
      · cases h₄ : api.store.GetByID id with
        | none =>
          rw [API.handleUpdateItem_absent c api _ r t id item h₁ h₂ h₃ h₄,
            API.respondError_fresh]
          simp [StatusBadRequest, StatusNotFound, h₃, h₄]
        | some old =>
          rw [API.handleUpdateItem_present c api _ r t id item old h₁ h₂ h₃ h₄,
            API.respondJSON_fresh, Store.Update_of_present api.store id item t old h₄]
          have hu := Store.Update_of_present api.store id item t old h₄
          simp [StatusBadRequest, StatusNotFound, StatusOK, h₃, h₄, hu]

/-- C12: for every store state and every create request body, the create
handler answers 400 exactly when the body cannot be parsed or the parsed name
is empty, and then the store is unchanged; otherwise it answers 201 with the
stored item, whose id is the store's counter value and whose created_at and
updated_at are the store's two clock readings, whatever id and timestamps the
body supplied. -/
theorem create_handler_spec (c : Codec) (api : API) (r : Request) (t₁ t₂ : Time) :
    ((api.handleCreateItem c ResponseWriter.fresh r t₁ t₂).1.status = some StatusBadRequest ↔
      (c.decodeItem r.Body = none ∨ ∃ item, c.decodeItem r.Body = some item ∧ item.Name = "")) ∧
    ((api.handleCreateItem c ResponseWriter.fresh r t₁ t₂).1.status = some StatusBadRequest →
      (api.handleCreateItem c ResponseWriter.fresh r t₁ t₂).2 = api) ∧
    ((api.handleCreateItem c ResponseWriter.fresh r t₁ t₂).1.status = some StatusBadRequest ∨
      ∃ item, c.decodeItem r.Body = some item ∧
        (api.handleCreateItem c ResponseWriter.fresh r t₁ t₂).1.status = some StatusCreated ∧
        (api.handleCreateItem c ResponseWriter.fresh r t₁ t₂).1.body =
          [Payload.item
            { ID := api.store.nextID, Name := item.Name, Description := item.Description,
              CreatedAt := t₁, UpdatedAt := t₂ }] ∧
        (api.handleCreateItem c ResponseWriter.fresh r t₁ t₂).2.store.GetByID api.store.nextID =
          some
            { ID := api.store.nextID, Name := item.Name, Description := item.Description,
              CreatedAt := t₁, UpdatedAt := t₂ } ∧
        (api.handleCreateItem c ResponseWriter.fresh r t₁ t₂).2.store =
          (api.store.Create item t₁ t₂).2) := by
  cases h₁ : c.decodeItem r.Body with
  | none =>
    rw [API.handleCreateItem_bad_body c api _ r t₁ t₂ h₁, API.respondError_fresh]
    simp [StatusBadRequest]
  | some item =>
    by_cases h₂ : item.Name = ""
    · rw [API.handleCreateItem_no_name c api _ r t₁ t₂ item h₁ h₂, API.respondError_fresh]
      simp [StatusBadRequest, h₂]
    · rw [API.handleCreateItem_ok c api _ r t₁ t₂ item h₁ h₂, API.respondJSON_fresh]
      have hget := create_then_getByID_aux api.store item t₁ t₂
      rw [Store.Create_fst] at hget
      simp [StatusBadRequest, StatusCreated, h₂, Store.Create_fst, hget]

/-- C13: for every store state and every path id text, the delete handler
answers 400 exactly when the id text is not a valid integer, 404 exactly when
it is a valid integer absent from the store, and otherwise 204 with an empty
body after removing exactly that item; on 400 and 404 the store is unchanged. -/
theorem delete_handler_spec (c : Codec) (api : API) (r : Request) :
    ((api.handleDeleteItem c ResponseWriter.fresh r).1.status = some StatusBadRequest ↔
      c.atoi (r.var "id") = none) ∧
    ((api.handleDeleteItem c ResponseWriter.fresh r).1.status = some StatusNotFound ↔
      ∃ id, c.atoi (r.var "id") = some id ∧ api.store.GetByID id = none) ∧
    ((api.handleDeleteItem c ResponseWriter.fresh r).1.status = some StatusBadRequest ∨
      (api.handleDeleteItem c ResponseWriter.fresh r).1.status = some StatusNotFound ∨
      ∃ id, c.atoi (r.var "id") = some id ∧ id ∈ api.store.items ∧
        (api.handleDeleteItem c ResponseWriter.fresh r).1.status = some StatusNoContent ∧
        (api.handleDeleteItem c ResponseWriter.fresh r).1.body = [] ∧
        (api.handleDeleteItem c ResponseWriter.fresh r).2.store.GetByID id = none ∧
        (∀ k, k ≠ id →
          (api.handleDeleteItem c ResponseWriter.fresh r).2.store.GetByID k =
            api.store.GetByID k) ∧
        (api.handleDeleteItem c ResponseWriter.fresh r).2.store.nextID = api.store.nextID) ∧
    ((api.handleDeleteItem c ResponseWriter.fresh r).1.status = some StatusBadRequest ∨
      (api.handleDeleteItem c ResponseWriter.fresh r).1.status = some StatusNotFound →
      (api.handleDeleteItem c ResponseWriter.fresh r).2 = api) := by
  cases h₁ : c.atoi (r.var "id") with
  | none =>
    rw [API.handleDeleteItem_bad_id c api _ r h₁, API.respondError_fresh]
    simp [StatusBadRequest, StatusNotFound]
  | some id =>
    cases h₂ : api.store.GetByID id with
    | none =>
      rw [API.handleDeleteItem_absent c api _ r id h₁ h₂, API.respondError_fresh]
      simp [StatusBadRequest, StatusNotFound, h₂]
    | some old =>
      rw [API.handleDeleteItem_present c api _ r id old h₁ h₂,
        Store.Delete_of_present api.store id old h₂]
      have hmem : id ∈ api.store.items :=
        AList.lookup_isSome.mp (by rw [show api.store.items.lookup id = some old from h₂]; rfl)
      have hsome : api.store.items.lookup id = some old := h₂
      simp [StatusBadRequest, StatusNotFound, StatusNoContent, ResponseWriter.WriteHeader,
        ResponseWriter.fresh, Store.GetByID, hmem, hsome]
      exact fun k hk => AList.lookup_erase_ne hk

/-- C14: for every store state and every path id text, the get-item handler
answers 400 exactly when the id text is not a valid integer, 404 exactly when
it is a valid integer absent from the store, and otherwise 200 with the stored
item of that id; the store is unchanged in all three cases. -/
theorem get_handler_spec (c : Codec) (api : API) (r : Request) :
    ((api.handleGetItem c ResponseWriter.fresh r).1.status = some StatusBadRequest ↔
      c.atoi (r.var "id") = none) ∧
    ((api.handleGetItem c ResponseWriter.fresh r).1.status = some StatusNotFound ↔
      ∃ id, c.atoi (r.var "id") = some id ∧ api.store.GetByID id = none) ∧
    ((api.handleGetItem c ResponseWriter.fresh r).1.status = some StatusBadRequest ∨
      (api.handleGetItem c ResponseWriter.fresh r).1.status = some StatusNotFound ∨
      ∃ id item, c.atoi (r.var "id") = some id ∧ api.store.GetByID id = some item ∧
        (api.handleGetItem c ResponseWriter.fresh r).1.status = some StatusOK ∧
        (api.handleGetItem c ResponseWriter.fresh r).1.body = [Payload.item item]) ∧
    (api.handleGetItem c ResponseWriter.fresh r).2 = api := by
  cases h₁ : c.atoi (r.var "id") with
  | none =>
    rw [API.handleGetItem_bad_id c api _ r h₁, API.respondError_fresh]
    simp [StatusBadRequest, StatusNotFound]
  | some id =>
    cases h₂ : api.store.GetByID id with
    | none =>
      rw [API.handleGetItem_absent c api _ r id h₁ h₂, API.respondError_fresh]
      simp [StatusBadRequest, StatusNotFound, h₂]
    | some item =>
      rw [API.handleGetItem_present c api _ r id item h₁ h₂, API.respondJSON_fresh]
      simp [StatusBadRequest, StatusNotFound, StatusOK, h₂]

/-- C15, the claim as stated fails: the answer to a delete of a stored item is
status 204 with no header at all, so no Content-Type, and an empty body. -/
theorem delete_success_sets_no_content_type :
    ((NewAPI oneItemStore "").serve sampleCodec
      (Call.deleteItem { vars := [("id", "1")], Body := "" })).1 =
        { header := [], status := some 204, body := [] } ∧
    ((NewAPI oneItemStore "").serve sampleCodec
      (Call.deleteItem { vars := [("id", "1")], Body := "" })).1.header.lookup "Content-Type"
        = none := by
  decide

/-- C15, amended: a response has status 204 exactly when it answers a delete of
a stored item, and then it has no header and an empty body; every other
response of every handler, on success and failure paths alike, carries a body
and sets the Content-Type header to application/json. -/
theorem content_type_spec (c : Codec) (api : API) (call : Call) :
    ((api.serve c call).1.status = some StatusNoContent ↔
      ∃ r id, call = Call.deleteItem r ∧ c.atoi (r.var "id") = some id ∧
        id ∈ api.store.items) ∧
    ((api.serve c call).1.status = some StatusNoContent →
      (api.serve c call).1.header = [] ∧ (api.serve c call).1.body = []) ∧
    ((api.serve c call).1.status ≠ some StatusNoContent →
      (api.serve c call).1.header.lookup "Content-Type" = some "application/json" ∧
      (api.serve c call).1.body ≠ []) := by
  cases call with
  | health r t =>
    simp [API.serve, API.handleHealth, API.respondJSON_fresh, StatusOK, StatusNoContent]
  | getItems r =>
    simp [API.serve, API.handleGetItems, API.respondJSON_fresh, StatusOK, StatusNoContent]
  | getItem r =>
    simp only [API.serve]
    cases h₁ : c.atoi (r.var "id") with
    | none =>
      rw [API.handleGetItem_bad_id c api _ r h₁, API.respondError_fresh]
      simp [StatusBadRequest, StatusNoContent]
    | some id =>
      cases h₂ : api.store.GetByID id with
      | none =>
        rw [API.handleGetItem_absent c api _ r id h₁ h₂, API.respondError_fresh]
        simp [StatusNotFound, StatusNoContent]
      | some item =>
        rw [API.handleGetItem_present c api _ r id item h₁ h₂, API.respondJSON_fresh]
        simp [StatusOK, StatusNoContent]
  | createItem r t₁ t₂ =>
    simp only [API.serve]
    cases h₁ : c.decodeItem r.Body with
    | none =>
      rw [API.handleCreateItem_bad_body c api _ r t₁ t₂ h₁, API.respondError_fresh]
      simp [StatusBadRequest, StatusNoContent]
    | some item =>
      by_cases h₂ : item.Name = ""
      · rw [API.handleCreateItem_no_name c api _ r t₁ t₂ item h₁ h₂, API.respondError_fresh]
        simp [StatusBadRequest, StatusNoContent]
      · rw [API.handleCreateItem_ok c api _ r t₁ t₂ item h₁ h₂, API.respondJSON_fresh]
        simp [StatusCreated, StatusNoContent]
  | updateItem r t =>
    simp only [API.serve]
    cases h₁ : c.atoi (r.var "id") with
    | none =>
      rw [API.handleUpdateItem_bad_id c api _ r t h₁, API.respondError_fresh]
      simp [StatusBadRequest, StatusNoContent]
    | some id =>
      cases h₂ : c.decodeItem r.Body with
      | none =>
        rw [API.handleUpdateItem_bad_body c api _ r t id h₁ h₂, API.respondError_fresh]
        simp [StatusBadRequest, StatusNoContent]
      | some item =>
        by_cases h₃ : item.Name = ""
        · rw [API.handleUpdateItem_no_name c api _ r t id item h₁ h₂ h₃, API.respondError_fresh]
          simp [StatusBadRequest, StatusNoContent]
        · cases h₄ : api.store.GetByID id with
          | none =>
            rw [API.handleUpdateItem_absent c api _ r t id item h₁ h₂ h₃ h₄,
              API.respondError_fresh]
            simp [StatusNotFound, StatusNoContent]
          | some old =>
            rw [API.handleUpdateItem_present c api _ r t id item old h₁ h₂ h₃ h₄,
              API.respondJSON_fresh]
            simp [StatusOK, StatusNoContent]
  | deleteItem r =>
    simp only [API.serve]
    cases h₁ : c.atoi (r.var "id") with
    | none =>
      rw [API.handleDeleteItem_bad_id c api _ r h₁, API.respondError_fresh]
      simp [StatusBadRequest, StatusNoContent, h₁]
    | some id =>
      cases h₂ : api.store.GetByID id with
      | none =>
        rw [API.handleDeleteItem_absent c api _ r id h₁ h₂, API.respondError_fresh]
        simp [StatusNotFound, StatusNoContent, h₁, AList.lookup_eq_none.mp h₂]
      | some old =>
        rw [API.handleDeleteItem_present c api _ r id old h₁ h₂]
        have hmem : id ∈ api.store.items :=
          AList.lookup_isSome.mp
            (by rw [show api.store.items.lookup id = some old from h₂]; rfl)
        simp [StatusNoContent, ResponseWriter.WriteHeader, ResponseWriter.fresh, h₁, hmem]

/-- C15, amended, at a concrete input: the 404 answer to a delete of an absent
id sets the Content-Type header. -/
theorem content_type_spec_witness :
    ((NewAPI oneItemStore "").serve sampleCodec
      (Call.deleteItem { vars := [("id", "2")], Body := "" })).1.header.lookup "Content-Type"
        = some "application/json" :=
  ((content_type_spec sampleCodec (NewAPI oneItemStore "")
    (Call.deleteItem { vars := [("id", "2")], Body := "" })).2.2 (by decide)).1

/-- C16: for every handler and every input, a response with status 400 or 404
has as body an object with the single field `error`, holding text; the text is
"Invalid item ID" whenever the path id is not a valid integer (get, update and
delete), and "Name is required" whenever a create body, or an update body with
a valid id, parses with an empty name. -/
theorem error_responses_spec (c : Codec) (api : API) :
    (∀ call, ((api.serve c call).1.status = some StatusBadRequest ∨
        (api.serve c call).1.status = some StatusNotFound) →
      ∃ message, (api.serve c call).1.body = [Payload.object [("error", message)]]) ∧
    (∀ r, c.atoi (r.var "id") = none →
      (api.handleGetItem c ResponseWriter.fresh r).1.status = some StatusBadRequest ∧
      (api.handleGetItem c ResponseWriter.fresh r).1.body =
        [Payload.object [("error", "Invalid item ID")]] ∧
      (api.handleDeleteItem c ResponseWriter.fresh r).1.status = some StatusBadRequest ∧
      (api.handleDeleteItem c ResponseWriter.fresh r).1.body =
        [Payload.object [("error", "Invalid item ID")]] ∧
      ∀ t, (api.handleUpdateItem c ResponseWriter.fresh r t).1.status = some StatusBadRequest ∧
        (api.handleUpdateItem c ResponseWriter.fresh r t).1.body =
          [Payload.object [("error", "Invalid item ID")]]) ∧
    (∀ r item, c.decodeItem r.Body = some item → item.Name = "" →
      (∀ t₁ t₂,
        (api.handleCreateItem c ResponseWriter.fresh r t₁ t₂).1.status = some StatusBadRequest ∧
        (api.handleCreateItem c ResponseWriter.fresh r t₁ t₂).1.body =
          [Payload.object [("error", "Name is required")]]) ∧
      (∀ t id, c.atoi (r.var "id") = some id →
        (api.handleUpdateItem c ResponseWriter.fresh r t).1.status = some StatusBadRequest ∧
        (api.handleUpdateItem c ResponseWriter.fresh r t).1.body =
          [Payload.object [("error", "Name is required")]])) := by
  refine ⟨fun call => ?_, fun r h₁ => ?_, fun r item h₂ h₃ => ?_⟩
  · cases call with
    | health r t =>
      simp [API.serve, API.handleHealth, API.respondJSON_fresh, StatusOK, StatusBadRequest,
        StatusNotFound]
    | getItems r =>
      simp [API.serve, API.handleGetItems, API.respondJSON_fresh, StatusOK, StatusBadRequest,
        StatusNotFound]
    | getItem r =>
      simp only [API.serve]
      cases h₁ : c.atoi (r.var "id") with
      | none =>
        rw [API.handleGetItem_bad_id c api _ r h₁, API.respondError_fresh]
        simp
      | some id =>
        cases h₂ : api.store.GetByID id with
        | none =>
          rw [API.handleGetItem_absent c api _ r id h₁ h₂, API.respondError_fresh]
          simp
        | some item =>
          rw [API.handleGetItem_present c api _ r id item h₁ h₂, API.respondJSON_fresh]
          simp [StatusOK, StatusBadRequest, StatusNotFound]
    | createItem r t₁ t₂ =>
      simp only [API.serve]
      cases h₁ : c.decodeItem r.Body with
      | none =>
        rw [API.handleCreateItem_bad_body c api _ r t₁ t₂ h₁, API.respondError_fresh]
        simp
      | some item =>
        by_cases h₂ : item.Name = ""
        · rw [API.handleCreateItem_no_name c api _ r t₁ t₂ item h₁ h₂, API.respondError_fresh]
          simp
        · rw [API.handleCreateItem_ok c api _ r t₁ t₂ item h₁ h₂, API.respondJSON_fresh]
          simp [StatusCreated, StatusBadRequest, StatusNotFound]
    | updateItem r t =>
      simp only [API.serve]
      cases h₁ : c.atoi (r.var "id") with
      | none =>
        rw [API.handleUpdateItem_bad_id c api _ r t h₁, API.respondError_fresh]
        simp
      | some id =>
        cases h₂ : c.decodeItem r.Body with
        | none =>
          rw [API.handleUpdateItem_bad_body c api _ r t id h₁ h₂, API.respondError_fresh]
          simp
        | some item =>
          by_cases h₃ : item.Name = ""
          · rw [API.handleUpdateItem_no_name c api _ r t id item h₁ h₂ h₃,
              API.respondError_fresh]
            simp
          · cases h₄ : api.store.GetByID id with
            | none =>
              rw [API.handleUpdateItem_absent c api _ r t id item h₁ h₂ h₃ h₄,
                API.respondError_fresh]
              simp
            | some old =>
              rw [API.handleUpdateItem_present c api _ r t id item old h₁ h₂ h₃ h₄,
                API.respondJSON_fresh]
              simp [StatusOK, StatusBadRequest, StatusNotFound]
    | deleteItem r =>
      simp only [API.serve]
      cases h₁ : c.atoi (r.var "id") with
      | none =>
        rw [API.handleDeleteItem_bad_id c api _ r h₁, API.respondError_fresh]
        simp
      | some id =>
        cases h₂ : api.store.GetByID id with
        | none =>
          rw [API.handleDeleteItem_absent c api _ r id h₁ h₂, API.respondError_fresh]
          simp
        | some old =>
          rw [API.handleDeleteItem_present c api _ r id old h₁ h₂]
          simp [StatusNoContent, StatusBadRequest, StatusNotFound, ResponseWriter.WriteHeader,
            ResponseWriter.fresh]
  · rw [API.handleGetItem_bad_id c api _ r h₁, API.handleDeleteItem_bad_id c api _ r h₁,
      API.respondError_fresh]
    refine ⟨rfl, rfl, rfl, rfl, fun t => ?_⟩
    rw [API.handleUpdateItem_bad_id c api _ r t h₁, API.respondError_fresh]
    exact ⟨rfl, rfl⟩
  · refine ⟨fun t₁ t₂ => ?_, fun t id h₁ => ?_⟩
    · rw [API.handleCreateItem_no_name c api _ r t₁ t₂ item h₂ h₃, API.respondError_fresh]
      exact ⟨rfl, rfl⟩
    · rw [API.handleUpdateItem_no_name c api _ r t id item h₁ h₂ h₃, API.respondError_fresh]
      exact ⟨rfl, rfl⟩

/-- C18, the claim as stated fails: with clock readings 1 and 2 at lines 41 and
42, `Create` returns an item whose created_at is 1 and whose updated_at is 2. -/
theorem create_reads_clock_twice :
    (NewStore.Create sampleItem 1 2).1.CreatedAt = 1 ∧
    (NewStore.Create sampleItem 1 2).1.UpdatedAt = 2 ∧
    (NewStore.Create sampleItem 1 2).1.CreatedAt ≠ (NewStore.Create sampleItem 1 2).1.UpdatedAt := by
  decide

/-- C18, amended: for every store state and every input item, the item returned
by `Create` has created_at set to the first clock reading of the call and
updated_at to the second; they are equal exactly when the two readings are, and
created_at ≤ updated_at when the second reading is not before the first. -/
theorem create_timestamps (s : Store) (item : Item) (t₁ t₂ : Time) :
    (s.Create item t₁ t₂).1.CreatedAt = t₁ ∧
    (s.Create item t₁ t₂).1.UpdatedAt = t₂ ∧
    ((s.Create item t₁ t₂).1.CreatedAt = (s.Create item t₁ t₂).1.UpdatedAt ↔ t₁ = t₂) ∧
    (t₁ ≤ t₂ → (s.Create item t₁ t₂).1.CreatedAt ≤ (s.Create item t₁ t₂).1.UpdatedAt) := by
  simp [Store.Create_fst]

/-- C18, amended, at a concrete input: readings 3 and 5. -/
theorem create_timestamps_witness :
    (oneItemStore.Create sampleItem 3 5).1.CreatedAt ≤ (oneItemStore.Create sampleItem 3 5).1.UpdatedAt :=
  (create_timestamps oneItemStore sampleItem 3 5).2.2.2 (by decide)

/-- C19, the claim as stated fails: after 2^63 - 1 `Create` calls on a new
store the item of id 1 is still stored and the 64-bit counter has wrapped to the
least `int`, so key 1 is not below the counter and the next id issued is smaller
than a stored id. -/
theorem counter_wraps_below_stored_ids :
    (NewStore.after (createsOnly 9223372036854775807)).GetByID 1 =
      some { ID := 1, Name := "A", Description := "first", CreatedAt := 0, UpdatedAt := 0 } ∧
    (NewStore.after (createsOnly 9223372036854775807)).nextID = -9223372036854775808 ∧
    ¬ ((1 : Int) < (NewStore.after (createsOnly 9223372036854775807)).nextID) ∧
    ((NewStore.after (createsOnly 9223372036854775807)).Create Item.zero 1 1).1.ID < 1 := by
  have h₁ := NewStore_after_createsOnly_first 9223372036854775806 (by norm_num)
  have h₂ := NewStore_after_createsOnly_nextID 9223372036854775807
  have h₃ : (NewStore.after (createsOnly 9223372036854775807)).nextID = -9223372036854775808 := by
    rw [h₂]; norm_num
  refine ⟨h₁, h₃, ?_, ?_⟩
  · rw [h₃]; norm_num
  · rw [Store.Create_ID, h₃]; norm_num

/-- C19, amended: in every store state reached from a new store by any sequence
of store calls, every key k holds an item whose id field is k, so the stored ids
are pairwise distinct; as long as fewer than 2^63 - 1 `Create` calls were made,
moreover 1 ≤ k < counter, the stored ids are positive and the id the next
`Create` returns is larger than every stored id. -/
theorem stored_ids_below_counter (ops : List Op) :
    (∀ k item, (NewStore.after ops).GetByID k = some item → item.ID = k) ∧
    ((NewStore.after ops).GetAll.map (fun item => item.ID)).Nodup ∧
    ((countCreates ops : Int) < MaxInt →
      (∀ k item, (NewStore.after ops).GetByID k = some item →
        1 ≤ k ∧ k < (NewStore.after ops).nextID) ∧
      (∀ item ∈ (NewStore.after ops).GetAll, 0 < item.ID) ∧
      (∀ (input : Item) (t₁ t₂ : Time), ∀ item ∈ (NewStore.after ops).GetAll,
        item.ID < ((NewStore.after ops).Create input t₁ t₂).1.ID)) := by
  have hkeyed : ∀ k item, (NewStore.after ops).GetByID k = some item → item.ID = k :=
    Store.after_keyed ops NewStore (fun k item h => by simp [Store.GetByID, NewStore] at h)
  refine ⟨hkeyed, ?_, fun hlt => ?_⟩
  · rw [Store.GetAll_ids _ (NewStore_after_keyedByID ops)]
    exact (NewStore.after ops).items.keys_nodup
  · have hpre : NewStore.nextID + (countCreates ops : Int) ≤ MaxInt := by
      rw [show NewStore.nextID = 1 from rfl]
      omega
    obtain ⟨hinv, _⟩ :=
      Store.after_idsBelowCounter ops NewStore NewStore_idsBelowCounter hpre
    have hall : ∀ item ∈ (NewStore.after ops).GetAll,
        1 ≤ item.ID ∧ item.ID < (NewStore.after ops).nextID := by
      intro item hi
      obtain ⟨k, hk⟩ := (Store.mem_GetAll _ item).mp hi
      obtain ⟨a, b, d⟩ := hinv.2 k item hk
      rw [a]
      exact ⟨b, d⟩
    refine ⟨fun k item hk => (hinv.2 k item hk).2, fun item hi => ?_,
      fun input t₁ t₂ item hi => ?_⟩
    · have := (hall item hi).1
      omega
    · rw [Store.Create_ID]
      exact (hall item hi).2

/-- C19, amended, at a concrete input: two items are created and the first is
deleted. -/
theorem stored_ids_below_counter_witness :
    (NewStore.after [Op.create sampleItem 1 1, Op.create sampleItem 2 2, Op.delete 1]).GetByID 2
      ≠ none ∧
    (∀ k item,
      (NewStore.after [Op.create sampleItem 1 1, Op.create sampleItem 2 2, Op.delete 1]).GetByID k
        = some item →
      1 ≤ k ∧
      k < (NewStore.after [Op.create sampleItem 1 1, Op.create sampleItem 2 2,
        Op.delete 1]).nextID) :=
  ⟨by decide,
   ((stored_ids_below_counter
      [Op.create sampleItem 1 1, Op.create sampleItem 2 2, Op.delete 1]).2.2 (by decide)).1⟩

end GoCrudApi
